import Mathlib

/-!
Verification of the multitask dataset merging engine (`goli/data/dataset.py`).

The Python classes `SingleTaskDataset`, `MultitaskDataset` and `FakeDataset`
are embedded shallowly: labels and features are opaque type parameters
`L` and `F`, fallible Python operations (KeyError, IndexError, StopIteration,
AttributeError, ZeroDivisionError, ValueError) become `Except String`
computations whose error strings name the Python exception, and the
molecule-id computation `smiles_to_unique_mol_ids` (external to the merging
engine) is a parameter `cid : String → String`, matching the spec's
description of the IdentityResolver as a pure, order-preserving map.
-/

namespace Goli

/-- Left-to-right effectful map over a list in the `Except` monad, modelling a
Python list comprehension: elements are produced in order and the first
exception aborts the whole comprehension. -/
def exMap {α β E : Type} (f : α → Except E β) : List α → Except E (List β)
  | [] => .ok []
  | a :: l => do
    let b ← f a
    let r ← exMap f l
    .ok (b :: r)

/-- Lookup in an association list modelling a Python `dict` (keys are unique by
construction, insertion order is preserved). -/
def dlookup {α : Type} (k : String) : List (String × α) → Option α
  | [] => none
  | (k', v) :: rest => if k' = k then some v else dlookup k rest

/-- `d[k] = v` on a Python `dict` modelled as an association list: replace the
value of an existing key in place, otherwise append the new key at the end. -/
def dictSet {α : Type} (d : List (String × α)) (k : String) (v : α) :
    List (String × α) :=
  match d with
  | [] => [(k, v)]
  | (k', v') :: rest =>
    if k' = k then (k', v) :: rest else (k', v') :: dictSet rest k v

/-- Lexicographic code-point comparison of character lists: the string order
`np.unique` sorts by. -/
def charListLeB : List Char → List Char → Bool
  | [], _ => true
  | _ :: _, [] => false
  | a :: as, b :: bs =>
    if a.toNat < b.toNat then true
    else if b.toNat < a.toNat then false
    else charListLeB as bs

/-- Code-point lexicographic order on strings (numpy's string sort order). -/
def strLe (a b : String) : Prop := charListLeB a.data b.data = true

instance : DecidableRel strLe := fun a b =>
  inferInstanceAs (Decidable (charListLeB a.data b.data = true))

/-- `np.unique(l)` for string arrays (values only): the lexicographically
sorted list of distinct elements. -/
def npUnique (l : List String) : List String := l.dedup.insertionSort strLe

/-- `np.unique(l)` for natural-number arrays (used by
`FakeDataset._get_inv_of_mol_ids`). -/
def npUniqueN (l : List Nat) : List Nat := l.dedup.insertionSort (· ≤ ·)

/-- Index of the first occurrence of `a`, as used by `np.unique`'s
`return_inverse`: each row is mapped to the position of its value in the
sorted array of distinct values. -/
def idxOf {α : Type} [DecidableEq α] (a : α) : List α → Nat
  | [] => 0
  | x :: xs => if x = a then 0 else idxOf a xs + 1

/-- `SingleTaskDataset`: one task's parallel lists. `labels` is mandatory; the
remaining lists are optional (`None` in Python). -/
structure SingleTaskDataset (L F : Type) where
  labels : List L
  features : Option (List F)
  smiles : Option (List String)
  indices : Option (List String)
  weights : Option (List Int)
  unique_ids : Option (List String)
deriving DecidableEq, Repr

/-- One length assertion of `SingleTaskDataset.__init__`: an absent list is
not checked, a present list must have length `numel`, and the assertion
message names the offending pair. -/
def checkLen {α : Type} (name : String) (numel : Nat) :
    Option (List α) → Except String Unit
  | none => .ok ()
  | some l =>
    if l.length = numel then .ok ()
    else .error (name ++ " must be the same length as labels, got " ++
      toString l.length ++ " and " ++ toString numel)

/-- `SingleTaskDataset.__init__`: validates that every provided optional list
has the same length as `labels`, in source order (features, smiles, indices,
weights, unique_ids), failing with the assertion message naming the offending
pair. -/
def SingleTaskDataset.construct {L F : Type} (labels : List L)
    (features : Option (List F)) (smiles : Option (List String))
    (indices : Option (List String)) (weights : Option (List Int))
    (unique_ids : Option (List String)) :
    Except String (SingleTaskDataset L F) := do
  let numel := labels.length
  let _ ← checkLen "features" numel features
  let _ ← checkLen "smiles" numel smiles
  let _ ← checkLen "indices" numel indices
  let _ ← checkLen "weights" numel weights
  let _ ← checkLen "unique_ids" numel unique_ids
  .ok ⟨labels, features, smiles, indices, weights, unique_ids⟩

/-- Indexing one optional parallel list in `__getitem__`: an absent list
(`None`) yields an absent field, a present list raises IndexError when the
index is out of range. -/
def optIndex {α : Type} (msg : String) (ol : Option (List α)) (i : Nat) :
    Except String (Option α) :=
  match ol with
  | none => .ok none
  | some l =>
    match l.get? i with
    | some v => .ok (some v)
    | none => .error msg

/-- Indexing a mandatory list (IndexError out of range). -/
def reqIndex {α : Type} (msg : String) (l : List α) (i : Nat) :
    Except String α :=
  match l.get? i with
  | some v => .ok v
  | none => .error msg

/-- `l[0]` (IndexError on an empty list). -/
def reqHead {α : Type} (msg : String) (l : List α) : Except String α :=
  match l.head? with
  | some v => .ok v
  | none => .error msg

/-- The dictionary returned by `SingleTaskDataset.__getitem__`: a field is
`none` when the corresponding key is absent (the list was `None`). `labels`
is always present. -/
structure STDRecord (L F : Type) where
  features : Option F
  labels : L
  smiles : Option String
  indices : Option String
  weights : Option Int
  unique_ids : Option String
deriving DecidableEq, Repr

/-- `SingleTaskDataset.__getitem__(idx)`: builds the record dictionary,
indexing each provided list (IndexError when the index is out of range),
in source order. -/
def SingleTaskDataset.getItem {L F : Type} (d : SingleTaskDataset L F)
    (i : Nat) : Except String (STDRecord L F) := do
  let f ← optIndex "IndexError: features" d.features i
  let l ← reqIndex "IndexError: labels" d.labels i
  let s ← optIndex "IndexError: smiles" d.smiles i
  let ix ← optIndex "IndexError: indices" d.indices i
  let w ← optIndex "IndexError: weights" d.weights i
  let u ← optIndex "IndexError: unique_ids" d.unique_ids i
  .ok ⟨f, l, s, ix, w, u⟩

/-- `[ds[i]["smiles"] for i in range(len(ds))]` (KeyError when `smiles` was
not provided). -/
def dsSmilesList {L F : Type} (d : SingleTaskDataset L F) :
    Except String (List String) :=
  exMap (fun i => do
      let r ← d.getItem i
      match r.smiles with
      | some s => .ok s
      | none => .error "KeyError: smiles")
    (List.range d.labels.length)

/-- `[ds[i]["labels"] for i in range(len(ds))]`. -/
def dsLabelsList {L F : Type} (d : SingleTaskDataset L F) :
    Except String (List L) :=
  exMap (fun i => do
      let r ← d.getItem i
      .ok r.labels)
    (List.range d.labels.length)

/-- `[ds[i]["unique_ids"] for i in range(len(ds))]`. -/
def dsUniqueIdsList {L F : Type} (d : SingleTaskDataset L F) :
    Except String (List String) :=
  exMap (fun i => do
      let r ← d.getItem i
      match r.unique_ids with
      | some s => .ok s
      | none => .error "KeyError: unique_ids")
    (List.range d.labels.length)

/-- `[ds[i]["features"] for i in range(len(ds))]`. -/
def dsFeaturesList {L F : Type} (d : SingleTaskDataset L F) :
    Except String (List F) :=
  exMap (fun i => do
      let r ← d.getItem i
      match r.features with
      | some s => .ok s
      | none => .error "KeyError: features")
    (List.range d.labels.length)

/-- The five concatenated lists built by
`MultitaskDataset._get_all_lists_ids`. -/
structure AllLists (L F : Type) where
  smiles : List String
  features : List F
  labels : List L
  mol_ids : List String
  tasks : List String
deriving DecidableEq, Repr

/-- Concatenation of two `AllLists` contributions (the `extend` calls). -/
def appendAL {L F : Type} (a b : AllLists L F) : AllLists L F :=
  ⟨a.smiles ++ b.smiles, a.features ++ b.features, a.labels ++ b.labels,
    a.mol_ids ++ b.mol_ids, a.tasks ++ b.tasks⟩

/-- The mol-id step of `_get_all_lists_ids`: reuse `unique_ids` when the
first record has that key, otherwise map the id computation over the
smiles. -/
def molIdsStep {L F : Type} (cid : String → String) (d : SingleTaskDataset L F)
    (r0 : STDRecord L F) (sm : List String) : Except String (List String) :=
  if r0.unique_ids.isSome then dsUniqueIdsList d
  else .ok (sm.map cid)

/-- The features step of `_get_all_lists_ids`: extract the features only when
the first record has a `features` key. -/
def featuresStep {L F : Type} (d : SingleTaskDataset L F)
    (r0b : STDRecord L F) : Except String (Option (List F)) :=
  if r0b.features.isSome then (dsFeaturesList d).map some
  else .ok none

/-- One non-empty task's contribution inside
`MultitaskDataset._get_all_lists_ids`: extract smiles and labels row by row,
take the precomputed `unique_ids` when the first record has that key and
otherwise map the id computation `cid` over the smiles, and extract the
features only when the first record has a `features` key. -/
def taskContrib {L F : Type} (cid : String → String) (t : String)
    (d : SingleTaskDataset L F) : Except String (AllLists L F) := do
  let ds_smiles ← dsSmilesList d
  let ds_labels ← dsLabelsList d
  let r0 ← d.getItem 0
  let ds_mol_ids ← molIdsStep cid d r0 ds_smiles
  let r0b ← d.getItem 0
  let ds_features ← featuresStep d r0b
  .ok ⟨ds_smiles, ds_features.getD [], ds_labels, ds_mol_ids,
    List.replicate d.labels.length t⟩

/-- `MultitaskDataset._get_all_lists_ids`: iterate over the task mapping in
order, skipping tasks with zero rows, and concatenate the contributions. -/
def get_all_lists_ids {L F : Type} (cid : String → String) :
    List (String × SingleTaskDataset L F) → Except String (AllLists L F)
  | [] => .ok ⟨[], [], [], [], []⟩
  | td :: rest =>
    if td.2.labels.length = 0 then get_all_lists_ids cid rest
    else do
      let c ← taskContrib cid td.1 td.2
      let tail ← get_all_lists_ids cid rest
      .ok (appendAL c tail)

/-- `MultitaskDataset._get_inv_of_mol_ids`: `np.unique(all_mol_ids,
return_inverse=True)`. -/
def getInvStd (ids : List String) : List String × List Nat :=
  (npUnique ids, ids.map (fun s => idxOf s (npUnique ids)))

/-- `FakeDataset._get_inv_of_mol_ids`: the inverse is `range(len // nd)`
repeated `nd` times (`nd` = number of datasets), and the ids are
`np.unique` of that inverse. -/
def getInvFake (nd : Nat) (ids : List String) : List Nat × List Nat :=
  let inv := (List.replicate nd (List.range (ids.length / nd))).flatten
  (npUniqueN inv, inv)

/-- The smiles scatter loop of `merge`: append each row's smiles string to the
bucket of its unique position. -/
def smilesScatterGo : List (Nat × String) → List (List String) →
    List (List String)
  | [], acc => acc
  | (u, s) :: rest, acc =>
    smilesScatterGo rest (acc.set u ((acc.get? u).getD [] ++ [s]))

/-- The labels scatter loop of `merge`: `labels[unique_idx][task] = label`,
a dictionary write that silently overwrites an earlier label of the same
task at the same position. -/
def labelsScatterGo {L : Type} : List (Nat × String × L) →
    List (List (String × L)) → List (List (String × L))
  | [], acc => acc
  | (u, tk, lb) :: rest, acc =>
    labelsScatterGo rest (acc.set u (dictSet ((acc.get? u).getD []) tk lb))

/-- The features scatter loop of `merge`:
`features[unique_idx] = all_lists["features"][all_idx]`, walking
`enumerate(inv)` with counter `ai` and raising IndexError when the
concatenated feature list is shorter than the row count. A slot still
holding the initial `-1` placeholder is modelled as `none`. -/
def featuresScatterGo {F : Type} (feats : List F) :
    List Nat → Nat → List (Option F) → Except String (List (Option F))
  | [], _, acc => .ok acc
  | u :: rest, ai, acc =>
    match feats.get? ai with
    | none => .error "IndexError: features"
    | some v => featuresScatterGo feats rest (ai + 1) (acc.set u (some v))

/-- Result of `MultitaskDataset.merge`: a 4-tuple when the concatenated
feature list was non-empty, a 3-tuple otherwise. -/
inductive MergeResult (I L F : Type) where
  | with_feats (mol_ids : List I) (smiles : List (List String))
      (labels : List (List (String × L))) (features : List (Option F))
  | no_feats (mol_ids : List I) (smiles : List (List String))
      (labels : List (List (String × L)))
deriving DecidableEq, Repr

/-- The unique-id list of a merge result. -/
def MergeResult.molIds {I L F : Type} : MergeResult I L F → List I
  | .with_feats m _ _ _ => m
  | .no_feats m _ _ => m

/-- The per-position label dictionaries of a merge result. -/
def MergeResult.labelsList {I L F : Type} :
    MergeResult I L F → List (List (String × L))
  | .with_feats _ _ l _ => l
  | .no_feats _ _ l => l

/-- `MultitaskDataset.merge`, parameterised by the `_get_inv_of_mol_ids`
implementation (overridden by `FakeDataset`). -/
def mergeG {I L F : Type} (getInv : List String → List I × List Nat)
    (cid : String → String) (datasets : List (String × SingleTaskDataset L F)) :
    Except String (MergeResult I L F) := do
  let al ← get_all_lists_ids cid datasets
  let p := getInv al.mol_ids
  let mol_ids := p.1
  let inv := p.2
  let smiles := smilesScatterGo (inv.zip al.smiles)
    (List.replicate mol_ids.length [])
  let labels := labelsScatterGo (inv.zip (al.tasks.zip al.labels))
    (List.replicate mol_ids.length [])
  if 0 < al.features.length then do
    let features ← featuresScatterGo al.features inv 0
      (List.replicate mol_ids.length none)
    .ok (.with_feats mol_ids smiles labels features)
  else
    .ok (.no_feats mol_ids smiles labels)

/-- The loop of `MultitaskDataset.set_label_size_dict`: tasks with zero rows
are skipped, a non-empty task records the size of its first record's
label. -/
def set_label_size_go {L F : Type} (lsize : L → Nat) :
    List (String × SingleTaskDataset L F) → List (String × Nat) →
      Except String (List (String × Nat))
  | [], acc => .ok acc
  | td :: rest, acc =>
    if td.2.labels.length = 0 then set_label_size_go lsize rest acc
    else do
      let r ← td.2.getItem 0
      set_label_size_go lsize rest (dictSet acc td.1 (lsize r.labels))

/-- `MultitaskDataset.set_label_size_dict`, with the opaque
`torch.as_tensor(label).size()` abstracted as a parameter `lsize`. -/
def set_label_size_dict {L F : Type} (lsize : L → Nat)
    (datasets : List (String × SingleTaskDataset L F)) :
    Except String (List (String × Nat)) :=
  set_label_size_go lsize datasets []

/-- The state of a constructed `MultitaskDataset`. `mol_ids`/`smiles` are
`none` when `save_smiles_and_ids` is false; `features` is `none` when the
attribute was never assigned (the 3-tuple construction branch). -/
structure MultitaskDatasetS (L F : Type) where
  mol_ids : Option (List String)
  smiles : Option (List (List String))
  labels : List (List (String × L))
  features : Option (List (Option F))
  labels_size : List (String × Nat)
deriving DecidableEq, Repr

/-- Tuple unpacking of the `merge` result in `MultitaskDataset.__init__`:
the chosen branch expects a 4-tuple (`true`) or a 3-tuple (`false`);
a mismatch is a ValueError. -/
def unpackInit {I L F : Type} : Bool → MergeResult I L F →
    Except String (List I × List (List String) ×
      List (List (String × L)) × Option (List (Option F)))
  | true, .with_feats mi sm lb ft => .ok (mi, sm, lb, some ft)
  | false, .no_feats mi sm lb => .ok (mi, sm, lb, none)
  | true, .no_feats _ _ _ => .error "ValueError: unpack"
  | false, .with_feats _ _ _ _ => .error "ValueError: unpack"

/-- The branch condition of `MultitaskDataset.__init__`:
`(len(datasets[task]) > 0) and ("features" in datasets[task][0])`. -/
def expectFeaturesFlag {L F : Type} (d0 : SingleTaskDataset L F) :
    Except String Bool :=
  if 0 < d0.labels.length then do
    let r ← d0.getItem 0
    .ok r.features.isSome
  else .ok false

/-- `MultitaskDataset.__init__`: StopIteration on an empty mapping
(`next(iter(datasets))`), then unpack `merge` as a 4-tuple or a 3-tuple
according to whether the first task is non-empty and its first record has a
`features` key (ValueError on an arity mismatch). -/
def initMTD {L F : Type} (cid : String → String) (lsize : L → Nat)
    (save_smiles_and_ids : Bool)
    (datasets : List (String × SingleTaskDataset L F)) :
    Except String (MultitaskDatasetS L F) :=
  match datasets with
  | [] => .error "StopIteration"
  | (_, d0) :: _ => do
    let expectF ← expectFeaturesFlag d0
    let res ← mergeG getInvStd cid datasets
    let parts ← unpackInit expectF res
    let lsz ← set_label_size_dict lsize datasets
    .ok ⟨if save_smiles_and_ids then some parts.1 else none,
      if save_smiles_and_ids then some parts.2.1 else none,
      parts.2.2.1, parts.2.2.2, lsz⟩

/-- `MultitaskDataset.__len__` = `len(self.labels)`. -/
def MultitaskDatasetS.lengthM {L F : Type} (d : MultitaskDatasetS L F) : Nat :=
  d.labels.length

/-- Reading `self.features`: AttributeError when the attribute was never
assigned. -/
def MultitaskDatasetS.featuresAttr {L F : Type} (d : MultitaskDatasetS L F) :
    Except String (List (Option F)) :=
  match d.features with
  | some fs => .ok fs
  | none => .error "AttributeError: features"

/-- `data.num_nodes` for one entry of `self.features` (the opaque node count
is a parameter `nn`); an entry still holding the `-1` placeholder has no
`num_nodes` attribute. -/
def nodeCountOf {F : Type} (nn : F → Nat) : Option F → Except String Nat
  | some v => .ok (nn v)
  | none => .error "AttributeError: num_nodes"

/-- `MultitaskDataset.num_nodes_total`. -/
def num_nodes_totalE {L F : Type} (nn : F → Nat) (d : MultitaskDatasetS L F) :
    Except String Nat := do
  let fs ← d.featuresAttr
  let ns ← exMap (nodeCountOf nn) fs
  .ok ns.sum

/-- `MultitaskDataset.mean_num_nodes_per_graph` =
`num_nodes_total / num_graphs_total` (Python true division, which raises
ZeroDivisionError on an empty dataset — were that point ever reached). -/
def mean_num_nodes_per_graph {L F : Type} (nn : F → Nat)
    (d : MultitaskDatasetS L F) : Except String Rat := do
  let tot ← num_nodes_totalE nn d
  if d.lengthM = 0 then .error "ZeroDivisionError"
  else .ok ((tot : Rat) / (d.lengthM : Rat))

/-- `MultitaskDataset.num_edges_total`. -/
def num_edges_totalE {L F : Type} (ne : F → Nat) (d : MultitaskDatasetS L F) :
    Except String Nat := do
  let fs ← d.featuresAttr
  let ns ← exMap (nodeCountOf ne) fs
  .ok ns.sum

/-- `MultitaskDataset.mean_num_edges_per_graph`. -/
def mean_num_edges_per_graph {L F : Type} (ne : F → Nat)
    (d : MultitaskDatasetS L F) : Except String Rat := do
  let tot ← num_edges_totalE ne d
  if d.lengthM = 0 then .error "ZeroDivisionError"
  else .ok ((tot : Rat) / (d.lengthM : Rat))

/-- `MultitaskDataset.max_num_nodes_per_graph` (`max([])` raises
ValueError). -/
def max_num_nodes_per_graph {L F : Type} (nn : F → Nat)
    (d : MultitaskDatasetS L F) : Except String Nat := do
  let fs ← d.featuresAttr
  let ns ← exMap (nodeCountOf nn) fs
  match ns.max? with
  | some v => .ok v
  | none => .error "ValueError: max of empty sequence"

/-- `MultitaskDataset.min_num_nodes_per_graph` (`min([])` raises
ValueError). -/
def min_num_nodes_per_graph {L F : Type} (nn : F → Nat)
    (d : MultitaskDatasetS L F) : Except String Nat := do
  let fs ← d.featuresAttr
  let ns ← exMap (nodeCountOf nn) fs
  match ns.min? with
  | some v => .ok v
  | none => .error "ValueError: min of empty sequence"

/-- The state of a constructed `FakeDataset` (only the feature-carrying
construction branch ever finishes, see `initFake`). -/
structure FakeDatasetS (L F : Type) where
  num_mols : Nat
  indexing_same_elem : Bool
  mol_ids : List Nat
  smiles : List (List String)
  labels : List (List (String × L))
  features : List (Option F)
  labels_size : List (String × Nat)
deriving DecidableEq, Repr

/-- Replication of the optional features list in `deepcopy_mol`. -/
def optHeadRep {α : Type} (num : Nat) (msg : String) :
    Option (List α) → Except String (Option (List α))
  | none => .ok none
  | some fs =>
    match fs.head? with
    | some f0 => .ok (some (List.replicate num f0))
    | none => .error msg

/-- `FakeDataset.deepcopy_mol`: take element 0 of each list (IndexError when
empty) and replicate it `num_mols` times. Deep copying is the identity on
pure values; the parameter names reproduce the source signature
`(mol_ids, labels, smiles, features=None)` — note that the call sites pass
the smiles as `labels` and the labels as `smiles`, which the unpacking at
the call site swaps back. -/
def deepcopy_mol {A B C D : Type} (num_mols : Nat) (mol_ids : List A)
    (labels : List B) (smiles : List C) (features : Option (List D)) :
    Except String (List A × List B × List C × Option (List D)) := do
  let m0 ← reqHead "IndexError: mol_ids" mol_ids
  let l0 ← reqHead "IndexError: labels" labels
  let s0 ← reqHead "IndexError: smiles" smiles
  let fts ← optHeadRep num_mols "IndexError: features" features
  .ok (List.replicate num_mols m0, List.replicate num_mols l0,
    List.replicate num_mols s0, fts)

/-- 4-tuple unpacking of the merge result in the featured branch of
`FakeDataset.__init__`. -/
def unpackWith {I L F : Type} : MergeResult I L F →
    Except String (List I × List (List String) ×
      List (List (String × L)) × List (Option F))
  | .with_feats mi sm lb ft => .ok (mi, sm, lb, ft)
  | .no_feats _ _ _ => .error "ValueError: unpack"

/-- 3-tuple unpacking of the merge result in the feature-less branch of
`FakeDataset.__init__`. -/
def unpackNo {I L F : Type} : MergeResult I L F →
    Except String (List I × List (List String) × List (List (String × L)))
  | .no_feats mi sm lb => .ok (mi, sm, lb)
  | .with_feats _ _ _ _ => .error "ValueError: unpack"

/-- The featured branch's duplication step in `FakeDataset.__init__`: when
`indexing_same_elem` is false, call `deepcopy_mol` with the smiles passed as
the `labels` parameter and the labels as the `smiles` parameter, and unpack
the result in field order `mol_ids, smiles, labels, features` — the double
swap cancels out. -/
def fakeCopyStep {L F : Type} (num_mols : Nat) (same : Bool) (mi : List Nat)
    (sm : List (List String)) (lb : List (List (String × L)))
    (ft : List (Option F)) :
    Except String (List Nat × List (List String) ×
      List (List (String × L)) × List (Option F)) :=
  if same then .ok (mi, sm, lb, ft)
  else do
    let q ← deepcopy_mol num_mols mi sm lb (some ft)
    .ok (q.1, q.2.1, q.2.2.1, (q.2.2.2).getD [])

/-- The feature-less branch's duplication step in `FakeDataset.__init__`
(its assignments are dead because the branch always ends in an
AttributeError, but its possible IndexError is not). -/
def fakeCopyStepNo {L : Type} (F : Type) (num_mols : Nat) (same : Bool)
    (mi : List Nat) (sm : List (List String))
    (lb : List (List (String × L))) : Except String Unit :=
  if same then .ok ()
  else do
    let _ ← deepcopy_mol num_mols mi sm lb (none : Option (List F))
    .ok ()

/-- `FakeDataset.__init__`. On the branch where the first task's first record
has no `features` key, the constructor never assigns `self.features` but
still executes `self.features = self.features`, so that branch always ends in
an AttributeError (when an earlier step has not already failed). -/
def initFake {L F : Type} (cid : String → String) (lsize : L → Nat)
    (num_mols : Nat) (indexing_same_elem : Bool)
    (datasets : List (String × SingleTaskDataset L F)) :
    Except String (FakeDatasetS L F) :=
  match datasets with
  | [] => .error "StopIteration"
  | (_, d0) :: _ => do
    let r0 ← d0.getItem 0
    let res ← mergeG (getInvFake datasets.length) cid datasets
    if r0.features.isSome then do
      let parts ← unpackWith res
      let state ← fakeCopyStep num_mols indexing_same_elem parts.1 parts.2.1
        parts.2.2.1 parts.2.2.2
      let lsz ← set_label_size_dict lsize datasets
      .ok ⟨num_mols, indexing_same_elem, state.1, state.2.1, state.2.2.1,
        state.2.2.2, lsz⟩
    else do
      let parts ← unpackNo res
      let _ ← fakeCopyStepNo F num_mols indexing_same_elem parts.1
        parts.2.1 parts.2.2
      let _ ← set_label_size_dict lsize datasets
      .error "AttributeError: features"

/-- `FakeDataset.__len__` = `self.num_mols`. -/
def FakeDatasetS.lengthF {L F : Type} (fk : FakeDatasetS L F) : Nat :=
  fk.num_mols

/-- The dictionary returned by `FakeDataset.__getitem__`. -/
structure FakeRecord (L F : Type) where
  labels : List (String × L)
  features : Option F
deriving DecidableEq, Repr

/-- `FakeDataset.__getitem__`: when `indexing_same_elem` the index is
overridden to 0; otherwise the labels and features lists are indexed
directly. -/
def FakeDatasetS.getItemF {L F : Type} (fk : FakeDatasetS L F) (idx0 : Nat) :
    Except String (FakeRecord L F) := do
  let idx := if fk.indexing_same_elem then 0 else idx0
  let lb ← reqIndex "IndexError: labels" fk.labels idx
  let ft ← reqIndex "IndexError: features" fk.features idx
  .ok ⟨lb, ft⟩

/-- The label dictionary entry `t` of position `p` of a merged labels list. -/
def labelAt {L : Type} (ls : List (List (String × L))) (p : Nat) (t : String) :
    Option L :=
  dlookup t ((ls.get? p).getD [])

/-- The label that last-writer-wins row processing assigns to canonical id
`eid` for task `t`: the label of the last row (task iteration order, then row
order) whose id is `eid` and whose task is `t`. -/
def lastLabelFor {L F : Type} (al : AllLists L F) (eid : String) (t : String) :
    Option L :=
  ((al.mol_ids.zip (al.tasks.zip al.labels)).filterMap
    (fun r => if r.1 = eid then (if r.2.1 = t then some r.2.2 else none)
      else none)).getLast?

/-- The feature that last-writer-wins row processing assigns to canonical id
`eid`: the feature of the last row whose id is `eid`. -/
def lastFeatureFor {L F : Type} (al : AllLists L F) (eid : String) : Option F :=
  ((al.mol_ids.zip al.features).filterMap
    (fun r => if r.1 = eid then some r.2 else none)).getLast?

/-- A task of the mapping that contributed at least one row resolving to
canonical id `eid`. -/
def taskContributed {L F : Type} (al : AllLists L F) (eid : String)
    (t : String) : Prop :=
  ∃ r ∈ al.mol_ids.zip (al.tasks.zip al.labels), r.1 = eid ∧ r.2.1 = t

/-! ### Concrete example data (labels are `Int`, features are `Nat`) -/

/-- Identity map used as the id computation in concrete examples. -/
def wId : String → String := fun s => s

/-- Constant label-size function used in concrete examples. -/
def wSz : Int → Nat := fun _ => 1

/-- Task "A" of the spec §8 scenario: rows `m1, m2` with labels `0, 1`. -/
def wStdA : SingleTaskDataset Int Nat :=
  ⟨[0, 1], none, some ["m1", "m2"], none, none, some ["m1", "m2"]⟩

/-- Task "B" of the spec §8 scenario: rows `m2, m3` with labels `10, 5`. -/
def wStdB : SingleTaskDataset Int Nat :=
  ⟨[10, 5], none, some ["m2", "m3"], none, none, some ["m2", "m3"]⟩

/-- The two-task mapping of the spec §8 scenario. -/
def wDs1 : List (String × SingleTaskDataset Int Nat) :=
  [("A", wStdA), ("B", wStdB)]

/-- The same mapping iterated in the opposite order. -/
def wDs1P : List (String × SingleTaskDataset Int Nat) :=
  [("B", wStdB), ("A", wStdA)]

/-- The concatenated lists produced for `wDs1`. -/
def wAl1 : AllLists Int Nat :=
  ⟨["m1", "m2", "m2", "m3"], [], [0, 1, 10, 5],
    ["m1", "m2", "m2", "m3"], ["A", "A", "B", "B"]⟩

/-- The merge result for `wDs1`. -/
def wRes1 : MergeResult String Int Nat :=
  .no_feats ["m1", "m2", "m3"] [["m1"], ["m2", "m2"], ["m3"]]
    [[("A", 0)], [("A", 1), ("B", 10)], [("B", 5)]]

/-- The merge result for the reordered mapping `wDs1P`. -/
def wRes1P : MergeResult String Int Nat :=
  .no_feats ["m1", "m2", "m3"] [["m1"], ["m2", "m2"], ["m3"]]
    [[("A", 0)], [("B", 10), ("A", 1)], [("B", 5)]]

/-- The constructed `MultitaskDataset` for `wDs1`. -/
def wMtd1 : MultitaskDatasetS Int Nat :=
  ⟨some ["m1", "m2", "m3"], some [["m1"], ["m2", "m2"], ["m3"]],
    [[("A", 0)], [("A", 1), ("B", 10)], [("B", 5)]], none,
    [("A", 1), ("B", 1)]⟩

/-- A featured single-task store both of whose rows collapse onto the same
canonical id `z`. -/
def wStdC : SingleTaskDataset Int Nat :=
  ⟨[1, 2], some [10, 20], some ["s1", "s2"], none, none, some ["z", "z"]⟩

/-- The concatenated lists produced for `[("C", wStdC)]`. -/
def wAlC : AllLists Int Nat :=
  ⟨["s1", "s2"], [10, 20], [1, 2], ["z", "z"], ["C", "C"]⟩

/-- The single-task mapping over `wStdC`. -/
def wDsC : List (String × SingleTaskDataset Int Nat) := [("C", wStdC)]

/-- The merge result for `wDsC`: one entity, feature slot resolved
last-writer-wins. -/
def wResC : MergeResult String Int Nat :=
  .with_feats ["z"] [["s1", "s2"]] [[("C", 2)]] [some 20]

/-- A one-row store without features. -/
def wStdNoF : SingleTaskDataset Int Nat :=
  ⟨[0], none, some ["a"], none, none, some ["x"]⟩

/-- A one-row store with features, colliding with `wStdNoF` on id `x`. -/
def wStdWithF : SingleTaskDataset Int Nat :=
  ⟨[1], some [9], some ["b"], none, none, some ["x"]⟩

/-- The concatenated lists for the mixed mapping
`[("A", wStdNoF), ("B", wStdWithF)]`. -/
def wAlMix : AllLists Int Nat :=
  ⟨["a", "b"], [9], [0, 1], ["x", "x"], ["A", "B"]⟩

/-- A single-row featured store used for `FakeDataset` examples. -/
def wStdF : SingleTaskDataset Int Nat :=
  ⟨[7], some [3], some ["c"], none, none, some ["u"]⟩

/-- The `FakeDataset` built over `wStdF` with 10 records and independent
copies. -/
def wFk : FakeDatasetS Int Nat :=
  ⟨10, false, List.replicate 10 0, List.replicate 10 ["c"],
    List.replicate 10 [("A", 7)], List.replicate 10 (some 3), [("A", 1)]⟩

/-- A store with zero rows. -/
def wStdEmpty : SingleTaskDataset Int Nat := ⟨[], none, none, none, none, none⟩

/-- The `MultitaskDataset` built from a mapping whose only task is empty. -/
def wMtdEmpty : MultitaskDatasetS Int Nat := ⟨none, none, [], none, []⟩

/-! ### Generic helper lemmas -/

theorem exceptBind_ok {E A B : Type} (x : Except E A) (g : A → Except E B)
    (r : B) : (x >>= g) = .ok r ↔ ∃ a, x = .ok a ∧ g a = .ok r := by
  cases x <;> simp [Bind.bind, Except.bind]

theorem exceptBind_error {E A B : Type} (x : Except E A) (g : A → Except E B)
    (e : E) :
    (x >>= g) = .error e ↔
      x = .error e ∨ ∃ a, x = .ok a ∧ g a = .error e := by
  cases x <;> simp [Bind.bind, Except.bind]

theorem exMap_ok_length {α β E : Type} (f : α → Except E β) :
    ∀ (l : List α) (r : List β), exMap f l = .ok r → r.length = l.length := by
  intro l
  induction l with
  | nil =>
    intro r h
    simp only [exMap] at h
    cases h
    rfl
  | cons a l ih =>
    intro r h
    simp only [exMap] at h
    rw [exceptBind_ok] at h
    obtain ⟨b, _, h⟩ := h
    rw [exceptBind_ok] at h
    obtain ⟨rs, hrs, h⟩ := h
    cases h
    simp [ih rs hrs]

theorem dlookup_dictSet {α : Type} (d : List (String × α)) (k t : String)
    (v : α) :
    dlookup t (dictSet d k v) = if k = t then some v else dlookup t d := by
  induction d with
  | nil => simp [dictSet, dlookup]
  | cons kv rest ih =>
    obtain ⟨k', v'⟩ := kv
    by_cases hk : k' = k
    · subst hk
      simp only [dictSet, if_pos rfl]
      by_cases ht : k' = t
      · subst ht; simp [dlookup]
      · simp [dlookup, ht, ih]
    · simp only [dictSet, if_neg hk]
      by_cases ht : k' = t
      · subst ht
        have hkt : ¬(k = k') := fun h => hk h.symm
        simp [dlookup, hkt]
      · simp [dlookup, ht, ih]

theorem idxOf_lt_length {α : Type} [DecidableEq α] {a : α} :
    ∀ {l : List α}, a ∈ l → idxOf a l < l.length := by
  intro l
  induction l with
  | nil => intro h; cases h
  | cons x xs ih =>
    intro h
    by_cases hx : x = a
    · simp [idxOf, hx]
    · have : a ∈ xs := by
        cases h with
        | head => exact absurd rfl hx
        | tail _ h => exact h
      simp only [idxOf, if_neg hx, List.length_cons]
      exact Nat.succ_lt_succ (ih this)

theorem get?_idxOf {α : Type} [DecidableEq α] {a : α} :
    ∀ {l : List α}, a ∈ l → l.get? (idxOf a l) = some a := by
  intro l
  induction l with
  | nil => intro h; cases h
  | cons x xs ih =>
    intro h
    by_cases hx : x = a
    · simp [idxOf, hx]
    · have : a ∈ xs := by
        cases h with
        | head => exact absurd rfl hx
        | tail _ h => exact h
      have h2 := ih this
      rw [List.get?_eq_getElem?] at h2
      simp [idxOf, hx, h2]

theorem idxOf_eq_of_get? {α : Type} [DecidableEq α] {a : α} :
    ∀ {l : List α} {p : Nat}, l.Nodup → l.get? p = some a → idxOf a l = p := by
  intro l
  induction l with
  | nil => intro p _ h; simp at h
  | cons x xs ih =>
    intro p hn h
    cases p with
    | zero =>
      simp only [List.get?_cons_zero, Option.some_inj] at h
      simp [idxOf, h]
    | succ n =>
      simp only [List.get?_cons_succ] at h
      have hmem : a ∈ xs := List.get?_mem h
      have hx : ¬(x = a) := by
        intro hxa
        subst hxa
        exact (List.nodup_cons.mp hn).1 hmem
      simp [idxOf, hx, ih (List.nodup_cons.mp hn).2 h]

theorem char_eq_of_toNat_eq {a b : Char} (h : a.toNat = b.toNat) : a = b := by
  apply Char.eq_of_val_eq
  exact UInt32.eq_of_val_eq (Fin.ext h)

theorem string_eq_of_data_eq {s t : String} (h : s.data = t.data) : s = t := by
  cases s
  cases t
  exact congrArg String.mk h

theorem charListLeB_total :
    ∀ a b, charListLeB a b = true ∨ charListLeB b a = true := by
  intro a
  induction a with
  | nil => intro b; left; rfl
  | cons x xs ih =>
    intro b
    cases b with
    | nil => right; rfl
    | cons y ys =>
      simp only [charListLeB]
      by_cases h1 : x.toNat < y.toNat
      · left
        rw [if_pos h1]
      · by_cases h2 : y.toNat < x.toNat
        · right
          rw [if_pos h2]
        · rw [if_neg h1, if_neg h2, if_neg h2, if_neg h1]
          exact ih ys

theorem charListLeB_trans :
    ∀ a b c, charListLeB a b = true → charListLeB b c = true →
      charListLeB a c = true := by
  intro a
  induction a with
  | nil => intro b c _ _; rfl
  | cons x xs ih =>
    intro b c hab hbc
    cases b with
    | nil => simp [charListLeB] at hab
    | cons y ys =>
      cases c with
      | nil => simp [charListLeB] at hbc
      | cons z zs =>
        simp only [charListLeB] at hab hbc ⊢
        by_cases hxy : x.toNat < y.toNat
        · by_cases hyz : y.toNat < z.toNat
          · rw [if_pos (by omega : x.toNat < z.toNat)]
          · by_cases hzy : z.toNat < y.toNat
            · rw [if_neg hyz, if_pos hzy] at hbc
              cases hbc
            · rw [if_pos (by omega : x.toNat < z.toNat)]
        · by_cases hyx : y.toNat < x.toNat
          · rw [if_neg hxy, if_pos hyx] at hab
            cases hab
          · rw [if_neg hxy, if_neg hyx] at hab
            by_cases hyz : y.toNat < z.toNat
            · rw [if_pos (by omega : x.toNat < z.toNat)]
            · by_cases hzy : z.toNat < y.toNat
              · rw [if_neg hyz, if_pos hzy] at hbc
                cases hbc
              · rw [if_neg hyz, if_neg hzy] at hbc
                rw [if_neg (by omega : ¬ x.toNat < z.toNat),
                  if_neg (by omega : ¬ z.toNat < x.toNat)]
                exact ih ys zs hab hbc

theorem charListLeB_antisymm :
    ∀ a b, charListLeB a b = true → charListLeB b a = true → a = b := by
  intro a
  induction a with
  | nil =>
    intro b h1 h2
    cases b with
    | nil => rfl
    | cons y ys => simp [charListLeB] at h2
  | cons x xs ih =>
    intro b h1 h2
    cases b with
    | nil => simp [charListLeB] at h1
    | cons y ys =>
      simp only [charListLeB] at h1 h2
      by_cases hxy : x.toNat < y.toNat
      · rw [if_neg (by omega : ¬ y.toNat < x.toNat), if_pos hxy] at h2
        cases h2
      · by_cases hyx : y.toNat < x.toNat
        · rw [if_neg hxy, if_pos hyx] at h1
          cases h1
        · rw [if_neg hxy, if_neg hyx] at h1
          rw [if_neg hyx, if_neg hxy] at h2
          rw [char_eq_of_toNat_eq (by omega : x.toNat = y.toNat), ih ys h1 h2]

theorem npUnique_perm_dedup (l : List String) :
    List.Perm (npUnique l) l.dedup :=
  List.perm_insertionSort _ _

theorem npUniqueN_perm_dedup (l : List Nat) :
    List.Perm (npUniqueN l) l.dedup :=
  List.perm_insertionSort _ _

theorem npUnique_nodup (l : List String) : (npUnique l).Nodup :=
  (npUnique_perm_dedup l).symm.nodup (List.nodup_dedup l)

theorem npUnique_sorted (l : List String) :
    List.Sorted strLe (npUnique l) := by
  haveI : IsTotal String strLe := ⟨fun a b => charListLeB_total a.data b.data⟩
  haveI : IsTrans String strLe :=
    ⟨fun a b c => charListLeB_trans a.data b.data c.data⟩
  exact List.sorted_insertionSort _ _

theorem mem_npUnique {a : String} {l : List String} :
    a ∈ npUnique l ↔ a ∈ l :=
  (npUnique_perm_dedup l).mem_iff.trans List.mem_dedup

theorem npUnique_length (l : List String) :
    (npUnique l).length = l.toFinset.card := by
  rw [List.card_toFinset]
  exact (npUnique_perm_dedup l).length_eq

theorem npUnique_eq_of_perm {l l' : List String} (h : List.Perm l l') :
    npUnique l = npUnique l' := by
  haveI : IsAntisymm String strLe :=
    ⟨fun a b h1 h2 => string_eq_of_data_eq (charListLeB_antisymm _ _ h1 h2)⟩
  exact List.eq_of_perm_of_sorted
    ((npUnique_perm_dedup l).trans (h.dedup.trans (npUnique_perm_dedup l').symm))
    (npUnique_sorted l) (npUnique_sorted l')

theorem get?_set_self {α : Type} (l : List α) (p : Nat) (x : α)
    (h : p < l.length) : (l.set p x).get? p = some x := by
  simp [List.get?_eq_getElem?, List.getElem?_set_self', h]

theorem get?_set_ne {α : Type} (l : List α) {p q : Nat} (x : α) (h : q ≠ p) :
    (l.set q x).get? p = l.get? p := by
  simp [List.get?_eq_getElem?, List.getElem?_set_ne, h]

theorem getLast?_cons_of_ne_nil {α : Type} (a : α) {l : List α} (h : l ≠ []) :
    (a :: l).getLast? = l.getLast? := by
  cases l with
  | nil => exact absurd rfl h
  | cons b t => simp [List.getLast?_cons_cons]

/-! ### Scatter-loop lemmas -/

theorem labelsScatterGo_length {L : Type} :
    ∀ (rows : List (Nat × String × L)) (acc : List (List (String × L))),
      (labelsScatterGo rows acc).length = acc.length := by
  intro rows
  induction rows with
  | nil => intro acc; rfl
  | cons r rest ih =>
    intro acc
    obtain ⟨u, tk, lb⟩ := r
    simp only [labelsScatterGo]
    rw [ih]
    exact List.length_set acc u _

theorem getLast?_filterMap_cons {α β : Type} (f : α → Option β) (a : α)
    (l : List α) :
    (List.filterMap f (a :: l)).getLast? =
      ((List.filterMap f l).getLast?).elim (f a) some := by
  rw [List.filterMap_cons]
  rcases hrest : (List.filterMap f l).getLast? with _ | w
  · have hnil := List.getLast?_eq_none_iff.mp hrest
    rw [hnil]
    cases hfa : f a <;> simp
  · have hne : List.filterMap f l ≠ [] := by
      intro h
      rw [h] at hrest
      cases hrest
    cases hfa : f a with
    | none => simpa using hrest
    | some b =>
      rw [getLast?_cons_of_ne_nil b hne, hrest]
      rfl

theorem labelsScatterGo_labelAt {L : Type} :
    ∀ (rows : List (Nat × String × L)) (acc : List (List (String × L)))
      (p : Nat) (t : String), p < acc.length →
      labelAt (labelsScatterGo rows acc) p t =
        ((rows.filterMap (fun r =>
            if r.1 = p then (if r.2.1 = t then some r.2.2 else none)
            else none)).getLast?).elim (labelAt acc p t) some := by
  intro rows
  induction rows with
  | nil =>
    intro acc p t hp
    simp [labelsScatterGo, List.filterMap_nil]
  | cons r rest ih =>
    intro acc p t hp
    obtain ⟨u, tk, lb⟩ := r
    have hlen : p < (acc.set u (dictSet ((acc.get? u).getD []) tk lb)).length := by
      simpa using hp
    have hih := ih (acc.set u (dictSet ((acc.get? u).getD []) tk lb)) p t hlen
    simp only [labelsScatterGo]
    rw [hih, getLast?_filterMap_cons]
    rcases hrest : (rest.filterMap (fun r =>
        if r.1 = p then (if r.2.1 = t then some r.2.2 else none)
        else none)).getLast? with _ | w
    · rw [hrest]
      simp only [Option.elim_none]
      by_cases hu : u = p
      · subst hu
        by_cases ht : tk = t
        · subst ht
          have hval : labelAt (acc.set u (dictSet ((acc.get? u).getD []) tk lb))
              u tk = some lb := by
            unfold labelAt
            rw [get?_set_self _ _ _ hp]
            simp [dlookup_dictSet]
          rw [hval, if_pos rfl, if_pos rfl]
          rfl
        · have hval : labelAt (acc.set u (dictSet ((acc.get? u).getD []) tk lb))
              u t = labelAt acc u t := by
            unfold labelAt
            rw [get?_set_self _ _ _ hp]
            simp [dlookup_dictSet, fun h : tk = t => ht h]
          rw [hval, if_pos rfl, if_neg ht]
          rfl
      · have hval : labelAt (acc.set u (dictSet ((acc.get? u).getD []) tk lb))
            p t = labelAt acc p t := by
          unfold labelAt
          rw [get?_set_ne _ _ hu]
        rw [hval, if_neg hu]
        rfl
    · rw [hrest]
      rfl

theorem featuresScatterGo_ok_length {F : Type} (feats : List F) :
    ∀ (inv : List Nat) (ai : Nat) (acc res : List (Option F)),
      featuresScatterGo feats inv ai acc = .ok res →
      res.length = acc.length := by
  intro inv
  induction inv with
  | nil =>
    intro ai acc res h
    simp only [featuresScatterGo] at h
    cases h
    rfl
  | cons u rest ih =>
    intro ai acc res h
    simp only [featuresScatterGo] at h
    cases hf : feats.get? ai with
    | none => rw [hf] at h; cases h
    | some v =>
      rw [hf] at h
      have := ih (ai + 1) (acc.set u (some v)) res h
      simpa using this

theorem featuresScatterGo_error {F : Type} (feats : List F) :
    ∀ (inv : List Nat) (ai : Nat) (acc : List (Option F)), inv ≠ [] →
      feats.length < ai + inv.length →
      featuresScatterGo feats inv ai acc = .error "IndexError: features" := by
  intro inv
  induction inv with
  | nil => intro ai acc h; exact absurd rfl h
  | cons u rest ih =>
    intro ai acc _ hlt
    simp only [featuresScatterGo]
    cases hf : feats.get? ai with
    | none => rfl
    | some v =>
      have hai : ai < feats.length := by
        by_contra hge
        rw [List.get?_eq_getElem?, List.getElem?_eq_none (Nat.le_of_not_lt hge)]
          at hf
        cases hf
      have hrest : rest ≠ [] := by
        intro hnil
        subst hnil
        simp at hlt
        omega
      exact ih (ai + 1) (acc.set u (some v)) hrest (by simp at hlt ⊢; omega)

theorem featuresScatterGo_ok {F : Type} (feats : List F) :
    ∀ (inv : List Nat) (ai : Nat) (acc : List (Option F)),
      ai + inv.length ≤ feats.length →
      ∃ res, featuresScatterGo feats inv ai acc = .ok res := by
  intro inv
  induction inv with
  | nil => intro ai acc _; exact ⟨acc, rfl⟩
  | cons u rest ih =>
    intro ai acc hle
    simp only [featuresScatterGo]
    have hai : ai < feats.length := by simp at hle; omega
    cases hf : feats.get? ai with
    | none =>
      rw [List.get?_eq_getElem?, List.getElem?_eq_none_iff] at hf
      omega
    | some v =>
      exact ih (ai + 1) (acc.set u (some v)) (by simp at hle ⊢; omega)

theorem featuresScatterGo_get? {F : Type} (feats : List F) :
    ∀ (inv : List Nat) (ai : Nat) (acc res : List (Option F)) (p : Nat),
      featuresScatterGo feats inv ai acc = .ok res → p < acc.length →
      res.get? p = some
        ((((inv.zip (feats.drop ai)).filterMap
            (fun r => if r.1 = p then some r.2 else none)).getLast?).elim
          ((acc.get? p).getD none) some) := by
  intro inv
  induction inv with
  | nil =>
    intro ai acc res p h hp
    simp only [featuresScatterGo] at h
    cases h
    simp only [List.zip_nil_left, List.filterMap_nil, List.getLast?_nil]
    rcases hv : acc.get? p with _ | v
    · rw [List.get?_eq_getElem?, List.getElem?_eq_none_iff] at hv
      omega
    · simp [hv]
  | cons u rest ih =>
    intro ai acc res p h hp
    simp only [featuresScatterGo] at h
    cases hf : feats.get? ai with
    | none => rw [hf] at h; cases h
    | some v =>
      rw [hf] at h
      have hai : ai < feats.length := by
        rw [List.get?_eq_getElem?] at hf
        exact (List.getElem?_eq_some_iff.mp hf).1
      have hdrop : feats.drop ai = v :: feats.drop (ai + 1) := by
        rw [List.drop_eq_getElem_cons hai]
        congr 1
        rw [List.get?_eq_getElem?] at hf
        exact (List.getElem?_eq_some_iff.mp hf).2
      have hplen : p < (acc.set u (some v)).length := by simpa using hp
      have hih := ih (ai + 1) (acc.set u (some v)) res p h hplen
      rw [hih, hdrop]
      simp only [List.zip_cons_cons]
      rw [getLast?_filterMap_cons]
      rcases hrest : ((rest.zip (feats.drop (ai + 1))).filterMap
          (fun r => if r.1 = p then some r.2 else none)).getLast? with _ | w
      · rw [hrest]
        simp only [Option.elim_none]
        by_cases hu : u = p
        · subst hu
          rw [get?_set_self _ _ _ hp, if_pos rfl]
          rfl
        · rw [get?_set_ne _ _ hu, if_neg hu]
          rfl
      · rw [hrest]
        rfl

/-! ### Pipeline invariant lemmas -/

theorem exceptMap_ok {E A B : Type} (x : Except E A) (g : A → B) (b : B) :
    x.map g = .ok b ↔ ∃ a, x = .ok a ∧ g a = b := by
  cases x <;> simp [Except.map]

theorem exceptBind_ok_left {E A B : Type} (a : A) (g : A → Except E B) :
    ((Except.ok a : Except E A) >>= g) = g a := rfl

theorem optIndex_ok_isSome {α : Type} {msg : String} {ol : Option (List α)}
    {i : Nat} {r : Option α} (h : optIndex msg ol i = .ok r) :
    r.isSome = ol.isSome := by
  cases ol with
  | none => cases h; rfl
  | some l =>
    simp only [optIndex] at h
    cases hl : l.get? i with
    | none => rw [hl] at h; cases h
    | some v => rw [hl] at h; cases h; rfl

theorem getItem_ok_isSome {L F : Type} {d : SingleTaskDataset L F} {i : Nat}
    {r : STDRecord L F} (h : d.getItem i = .ok r) :
    r.features.isSome = d.features.isSome ∧
      r.unique_ids.isSome = d.unique_ids.isSome := by
  unfold SingleTaskDataset.getItem at h
  rw [exceptBind_ok] at h
  obtain ⟨f, hf, h⟩ := h
  rw [exceptBind_ok] at h
  obtain ⟨l, hl, h⟩ := h
  rw [exceptBind_ok] at h
  obtain ⟨s, hs, h⟩ := h
  rw [exceptBind_ok] at h
  obtain ⟨ix, hix, h⟩ := h
  rw [exceptBind_ok] at h
  obtain ⟨w, hw, h⟩ := h
  rw [exceptBind_ok] at h
  obtain ⟨u, hu, h⟩ := h
  cases h
  exact ⟨optIndex_ok_isSome hf, optIndex_ok_isSome hu⟩

theorem taskContrib_parts {L F : Type} {cid : String → String} {t : String}
    {d : SingleTaskDataset L F} {c : AllLists L F}
    (h : taskContrib cid t d = .ok c) :
    c.smiles.length = d.labels.length ∧
      c.labels.length = d.labels.length ∧
      c.mol_ids.length = d.labels.length ∧
      c.tasks.length = d.labels.length ∧
      c.features.length =
        (if d.features.isSome then d.labels.length else 0) := by
  unfold taskContrib at h
  rw [exceptBind_ok] at h
  obtain ⟨sm, hsm, h⟩ := h
  rw [exceptBind_ok] at h
  obtain ⟨lbs, hlbs, h⟩ := h
  rw [exceptBind_ok] at h
  obtain ⟨r0, hr0, h⟩ := h
  rw [exceptBind_ok] at h
  obtain ⟨mids, hmids, h⟩ := h
  rw [exceptBind_ok] at h
  obtain ⟨r0b, hr0b, h⟩ := h
  rw [exceptBind_ok] at h
  obtain ⟨fods, hfods, h⟩ := h
  cases h
  have hsml : sm.length = d.labels.length := by
    unfold dsSmilesList at hsm
    rw [exMap_ok_length _ _ _ hsm, List.length_range]
  have hlbl : lbs.length = d.labels.length := by
    unfold dsLabelsList at hlbs
    rw [exMap_ok_length _ _ _ hlbs, List.length_range]
  have hmidl : mids.length = d.labels.length := by
    unfold molIdsStep at hmids
    by_cases hui : r0.unique_ids.isSome
    · rw [if_pos hui] at hmids
      unfold dsUniqueIdsList at hmids
      rw [exMap_ok_length _ _ _ hmids, List.length_range]
    · rw [if_neg hui] at hmids
      cases hmids
      rw [List.length_map, hsml]
  refine ⟨hsml, hlbl, hmidl, List.length_replicate _ _, ?_⟩
  unfold featuresStep at hfods
  by_cases hfi : r0b.features.isSome
  · rw [if_pos hfi] at hfods
    rw [exceptMap_ok] at hfods
    obtain ⟨fs, hfs, hfod⟩ := hfods
    have : d.features.isSome = true := by
      rw [← (getItem_ok_isSome hr0b).1]
      exact hfi
    rw [if_pos this, ← hfod]
    unfold dsFeaturesList at hfs
    simp [exMap_ok_length _ _ _ hfs]
  · rw [if_neg hfi] at hfods
    cases hfods
    have : d.features.isSome = false := by
      rw [← (getItem_ok_isSome hr0b).1]
      simpa using hfi
    simp [this]

theorem get_all_cons {L F : Type} (cid : String → String)
    (td : String × SingleTaskDataset L F)
    (rest : List (String × SingleTaskDataset L F)) :
    get_all_lists_ids cid (td :: rest) =
      if td.2.labels.length = 0 then get_all_lists_ids cid rest
      else
        taskContrib cid td.1 td.2 >>= fun c =>
          get_all_lists_ids cid rest >>= fun tail =>
            .ok (appendAL c tail) := rfl

theorem get_all_lengths {L F : Type} (cid : String → String) :
    ∀ (ds : List (String × SingleTaskDataset L F)) (al : AllLists L F),
      get_all_lists_ids cid ds = .ok al →
      al.smiles.length = al.mol_ids.length ∧
        al.labels.length = al.mol_ids.length ∧
        al.tasks.length = al.mol_ids.length ∧
        al.features.length ≤ al.mol_ids.length := by
  intro ds
  induction ds with
  | nil =>
    intro al h
    simp only [get_all_lists_ids] at h
    cases h
    exact ⟨rfl, rfl, rfl, Nat.le_refl _⟩
  | cons td rest ih =>
    intro al h
    rw [get_all_cons] at h
    by_cases h0 : td.2.labels.length = 0
    · rw [if_pos h0] at h
      exact ih al h
    · rw [if_neg h0] at h
      rw [exceptBind_ok] at h
      obtain ⟨c, hc, h⟩ := h
      rw [exceptBind_ok] at h
      obtain ⟨tail, htail, h⟩ := h
      cases h
      obtain ⟨hs, hl, hm, hf, hft⟩ := taskContrib_parts hc
      obtain ⟨ts, tl, tm, tf⟩ := ih tail htail
      have h1 : c.features.length ≤ c.mol_ids.length := by
        rw [hft, hm]
        split <;> omega
      refine ⟨?_, ?_, ?_, ?_⟩ <;>
        simp only [appendAL, List.length_append] <;> omega

theorem get_all_features_all {L F : Type} (cid : String → String) :
    ∀ (ds : List (String × SingleTaskDataset L F)) (al : AllLists L F),
      get_all_lists_ids cid ds = .ok al →
      (∀ td ∈ ds, td.2.labels.length ≠ 0 → td.2.features.isSome = true) →
      al.features.length = al.mol_ids.length := by
  intro ds
  induction ds with
  | nil =>
    intro al h _
    simp only [get_all_lists_ids] at h
    cases h
    rfl
  | cons td rest ih =>
    intro al h hall
    rw [get_all_cons] at h
    by_cases h0 : td.2.labels.length = 0
    · rw [if_pos h0] at h
      exact ih al h (fun x hx => hall x (List.mem_cons_of_mem _ hx))
    · rw [if_neg h0] at h
      rw [exceptBind_ok] at h
      obtain ⟨c, hc, h⟩ := h
      rw [exceptBind_ok] at h
      obtain ⟨tail, htail, h⟩ := h
      cases h
      obtain ⟨_, _, hm, _, hft⟩ := taskContrib_parts hc
      have hdf := hall td (List.mem_cons_self _ _) h0
      have htl := ih tail htail (fun x hx => hall x (List.mem_cons_of_mem _ hx))
      simp only [appendAL, List.length_append]
      rw [hft, if_pos hdf, hm, htl]

theorem get_all_features_mixed {L F : Type} (cid : String → String) :
    ∀ (ds : List (String × SingleTaskDataset L F)) (al : AllLists L F),
      get_all_lists_ids cid ds = .ok al →
      (∃ td ∈ ds, td.2.labels.length ≠ 0 ∧ td.2.features.isSome = false) →
      al.features.length < al.mol_ids.length := by
  intro ds
  induction ds with
  | nil =>
    intro al _ hex
    obtain ⟨td, htd, _⟩ := hex
    cases htd
  | cons td rest ih =>
    intro al h hex
    rw [get_all_cons] at h
    by_cases h0 : td.2.labels.length = 0
    · rw [if_pos h0] at h
      obtain ⟨x, hx, hx1, hx2⟩ := hex
      rcases List.mem_cons.mp hx with heq | hmem
      · subst heq; exact absurd h0 hx1
      · exact ih al h ⟨x, hmem, hx1, hx2⟩
    · rw [if_neg h0] at h
      rw [exceptBind_ok] at h
      obtain ⟨c, hc, h⟩ := h
      rw [exceptBind_ok] at h
      obtain ⟨tail, htail, h⟩ := h
      cases h
      obtain ⟨_, _, hm, _, hft⟩ := taskContrib_parts hc
      obtain ⟨_, _, _, tfle⟩ := get_all_lengths cid rest tail htail
      obtain ⟨x, hx, hx1, hx2⟩ := hex
      simp only [appendAL, List.length_append]
      rcases List.mem_cons.mp hx with heq | hmem
      · subst heq
        rw [hft, if_neg (by simp [hx2]), hm]
        omega
      · have htl := ih tail htail ⟨x, hmem, hx1, hx2⟩
        have h1 : c.features.length ≤ c.mol_ids.length := by
          rw [hft, hm]
          split <;> omega
        omega

theorem get_all_features_pos {L F : Type} (cid : String → String) :
    ∀ (ds : List (String × SingleTaskDataset L F)) (al : AllLists L F),
      get_all_lists_ids cid ds = .ok al →
      (∃ td ∈ ds, td.2.labels.length ≠ 0 ∧ td.2.features.isSome = true) →
      0 < al.features.length := by
  intro ds
  induction ds with
  | nil =>
    intro al _ hex
    obtain ⟨td, htd, _⟩ := hex
    cases htd
  | cons td rest ih =>
    intro al h hex
    rw [get_all_cons] at h
    by_cases h0 : td.2.labels.length = 0
    · rw [if_pos h0] at h
      obtain ⟨x, hx, hx1, hx2⟩ := hex
      rcases List.mem_cons.mp hx with heq | hmem
      · subst heq; exact absurd h0 hx1
      · exact ih al h ⟨x, hmem, hx1, hx2⟩
    · rw [if_neg h0] at h
      rw [exceptBind_ok] at h
      obtain ⟨c, hc, h⟩ := h
      rw [exceptBind_ok] at h
      obtain ⟨tail, htail, h⟩ := h
      cases h
      obtain ⟨_, _, hm, _, hft⟩ := taskContrib_parts hc
      obtain ⟨x, hx, hx1, hx2⟩ := hex
      simp only [appendAL, List.length_append]
      rcases List.mem_cons.mp hx with heq | hmem
      · subst heq
        rw [hft, if_pos hx2]
        omega
      · have := ih tail htail ⟨x, hmem, hx1, hx2⟩
        omega

theorem get_all_head_le {L F : Type} (cid : String → String)
    (td : String × SingleTaskDataset L F)
    (rest : List (String × SingleTaskDataset L F)) (al : AllLists L F)
    (h : get_all_lists_ids cid (td :: rest) = .ok al) :
    td.2.labels.length ≤ al.mol_ids.length := by
  rw [get_all_cons] at h
  by_cases h0 : td.2.labels.length = 0
  · omega
  · rw [if_neg h0] at h
    rw [exceptBind_ok] at h
    obtain ⟨c, hc, h⟩ := h
    rw [exceptBind_ok] at h
    obtain ⟨tail, htail, h⟩ := h
    cases h
    obtain ⟨_, _, hm, _, _⟩ := taskContrib_parts hc
    simp only [appendAL, List.length_append]
    omega

theorem get_all_perm {L F : Type} (cid : String → String)
    {ds ds' : List (String × SingleTaskDataset L F)}
    (hperm : List.Perm ds ds') :
    ∀ {al : AllLists L F}, get_all_lists_ids cid ds = .ok al →
      ∃ al', get_all_lists_ids cid ds' = .ok al' ∧
        List.Perm al.mol_ids al'.mol_ids := by
  induction hperm with
  | nil =>
    intro al h
    exact ⟨al, h, List.Perm.refl _⟩
  | cons x hl ih =>
    intro al h
    rw [get_all_cons] at h ⊢
    by_cases h0 : x.2.labels.length = 0
    · rw [if_pos h0] at h ⊢
      exact ih h
    · rw [if_neg h0] at h ⊢
      rw [exceptBind_ok] at h
      obtain ⟨c, hc, h⟩ := h
      rw [exceptBind_ok] at h
      obtain ⟨tail, htail, h⟩ := h
      cases h
      obtain ⟨tail', htail', hp⟩ := ih htail
      refine ⟨appendAL c tail', ?_, ?_⟩
      · rw [hc, exceptBind_ok_left, htail', exceptBind_ok_left]
      · exact hp.append_left c.mol_ids
  | swap x y l =>
    intro al h
    rw [get_all_cons] at h
    by_cases hy : y.2.labels.length = 0 <;> by_cases hx : x.2.labels.length = 0
    · rw [if_pos hy, get_all_cons, if_pos hx] at h
      refine ⟨al, ?_, List.Perm.refl _⟩
      rw [get_all_cons, if_pos hx, get_all_cons, if_pos hy]
      exact h
    · rw [if_pos hy, get_all_cons, if_neg hx] at h
      rw [exceptBind_ok] at h
      obtain ⟨c, hc, h⟩ := h
      rw [exceptBind_ok] at h
      obtain ⟨tail, htail, h⟩ := h
      cases h
      refine ⟨appendAL c tail, ?_, List.Perm.refl _⟩
      rw [get_all_cons, if_neg hx, hc, exceptBind_ok_left, get_all_cons,
        if_pos hy, htail, exceptBind_ok_left]
    · rw [if_neg hy] at h
      rw [exceptBind_ok] at h
      obtain ⟨c, hc, h⟩ := h
      rw [exceptBind_ok] at h
      obtain ⟨tail, htail, h⟩ := h
      rw [get_all_cons, if_pos hx] at htail
      cases h
      refine ⟨appendAL c tail, ?_, List.Perm.refl _⟩
      rw [get_all_cons, if_pos hx, get_all_cons, if_neg hy, hc,
        exceptBind_ok_left, htail, exceptBind_ok_left]
    · rw [if_neg hy] at h
      rw [exceptBind_ok] at h
      obtain ⟨cy, hcy, h⟩ := h
      rw [exceptBind_ok] at h
      obtain ⟨tail1, htail1, h⟩ := h
      rw [get_all_cons, if_neg hx] at htail1
      rw [exceptBind_ok] at htail1
      obtain ⟨cx, hcx, htail1⟩ := htail1
      rw [exceptBind_ok] at htail1
      obtain ⟨tail, htail, htail1⟩ := htail1
      cases htail1
      cases h
      refine ⟨appendAL cx (appendAL cy tail), ?_, ?_⟩
      · rw [get_all_cons, if_neg hx, hcx, exceptBind_ok_left, get_all_cons,
          if_neg hy, hcy, exceptBind_ok_left, htail, exceptBind_ok_left,
          exceptBind_ok_left]
      · simp only [appendAL]
        exact List.perm_append_comm_assoc cy.mol_ids cx.mol_ids tail.mol_ids
  | trans h1 h2 ih1 ih2 =>
    intro al h
    obtain ⟨al1, hal1, hp1⟩ := ih1 h
    obtain ⟨al2, hal2, hp2⟩ := ih2 hal1
    exact ⟨al2, hal2, hp1.trans hp2⟩

/-! ### Merge-level lemmas -/

theorem exceptBind_err_left {E A B : Type} (e : E) (g : A → Except E B) :
    ((Except.error e : Except E A) >>= g) = .error e := rfl

theorem optionElim_id {α : Type} (o : Option α) :
    o.elim none some = o := by
  cases o <;> rfl

theorem replicate_get? {α : Type} {n p : Nat} (a : α) (h : p < n) :
    (List.replicate n a).get? p = some a := by
  simp [List.get?_eq_getElem?, List.getElem?_replicate, h]

theorem getLast?_isSome_iff {α : Type} (l : List α) :
    l.getLast?.isSome = true ↔ l ≠ [] := by
  rw [Option.isSome_iff_ne_none]
  constructor
  · intro h hnil
    exact h (List.getLast?_eq_none_iff.mpr hnil)
  · intro h hn
    exact h (List.getLast?_eq_none_iff.mp hn)

theorem mergeG_eq {I L F : Type} (getInv : List String → List I × List Nat)
    (cid : String → String) (ds : List (String × SingleTaskDataset L F))
    (al : AllLists L F) (hal : get_all_lists_ids cid ds = .ok al) :
    mergeG getInv cid ds =
      if 0 < al.features.length then
        featuresScatterGo al.features (getInv al.mol_ids).2 0
            (List.replicate (getInv al.mol_ids).1.length none) >>= fun ft =>
          .ok (.with_feats (getInv al.mol_ids).1
            (smilesScatterGo ((getInv al.mol_ids).2.zip al.smiles)
              (List.replicate (getInv al.mol_ids).1.length []))
            (labelsScatterGo ((getInv al.mol_ids).2.zip
                (al.tasks.zip al.labels))
              (List.replicate (getInv al.mol_ids).1.length []))
            ft)
      else
        .ok (.no_feats (getInv al.mol_ids).1
          (smilesScatterGo ((getInv al.mol_ids).2.zip al.smiles)
            (List.replicate (getInv al.mol_ids).1.length []))
          (labelsScatterGo ((getInv al.mol_ids).2.zip (al.tasks.zip al.labels))
            (List.replicate (getInv al.mol_ids).1.length []))) := by
  unfold mergeG
  rw [hal, exceptBind_ok_left]

theorem mergeG_ok_get_all {I L F : Type}
    {getInv : List String → List I × List Nat} {cid : String → String}
    {ds : List (String × SingleTaskDataset L F)} {res : MergeResult I L F}
    (hm : mergeG getInv cid ds = .ok res) :
    ∃ al, get_all_lists_ids cid ds = .ok al := by
  unfold mergeG at hm
  rw [exceptBind_ok] at hm
  obtain ⟨al, hal, _⟩ := hm
  exact ⟨al, hal⟩

theorem mergeG_ok_shape {I L F : Type}
    (getInv : List String → List I × List Nat) (cid : String → String)
    (ds : List (String × SingleTaskDataset L F)) (al : AllLists L F)
    (res : MergeResult I L F) (hal : get_all_lists_ids cid ds = .ok al)
    (hm : mergeG getInv cid ds = .ok res) :
    res.molIds = (getInv al.mol_ids).1 ∧
      res.labelsList =
        labelsScatterGo ((getInv al.mol_ids).2.zip (al.tasks.zip al.labels))
          (List.replicate (getInv al.mol_ids).1.length []) := by
  rw [mergeG_eq getInv cid ds al hal] at hm
  by_cases hf : 0 < al.features.length
  · rw [if_pos hf] at hm
    rw [exceptBind_ok] at hm
    obtain ⟨ft, _, hm⟩ := hm
    cases hm
    exact ⟨rfl, rfl⟩
  · rw [if_neg hf] at hm
    cases hm
    exact ⟨rfl, rfl⟩

theorem unpackInit_ok_parts {I L F : Type} {e : Bool} {res : MergeResult I L F}
    {parts : List I × List (List String) ×
      List (List (String × L)) × Option (List (Option F))}
    (h : unpackInit e res = .ok parts) :
    parts.2.2.1 = res.labelsList ∧ parts.1 = res.molIds := by
  cases e <;> cases res <;> cases h <;> exact ⟨rfl, rfl⟩

theorem filterMap_zip_congr_labels {L : Type} (f : String → Nat) (p : Nat)
    (eid t : String) :
    ∀ (ids : List String) (zs : List (String × L)),
      (∀ x ∈ ids, (f x = p ↔ x = eid)) →
      ((ids.map f).zip zs).filterMap (fun r =>
          if r.1 = p then (if r.2.1 = t then some r.2.2 else none)
          else none) =
        (ids.zip zs).filterMap (fun r =>
          if r.1 = eid then (if r.2.1 = t then some r.2.2 else none)
          else none) := by
  intro ids
  induction ids with
  | nil => intro zs _; rfl
  | cons x xs ih =>
    intro zs hc
    cases zs with
    | nil => rfl
    | cons z zt =>
      simp only [List.map_cons, List.zip_cons_cons, List.filterMap_cons]
      have hx := hc x (List.mem_cons_self _ _)
      have hrest := ih zt (fun y hy => hc y (List.mem_cons_of_mem _ hy))
      by_cases hfx : f x = p
      · rw [if_pos hfx, if_pos (hx.mp hfx), hrest]
      · rw [if_neg hfx, if_neg (fun he => hfx (hx.mpr he)), hrest]

theorem filterMap_zip_congr_feats {F : Type} (f : String → Nat) (p : Nat)
    (eid : String) :
    ∀ (ids : List String) (zs : List F),
      (∀ x ∈ ids, (f x = p ↔ x = eid)) →
      ((ids.map f).zip zs).filterMap
          (fun r => if r.1 = p then some r.2 else none) =
        (ids.zip zs).filterMap
          (fun r => if r.1 = eid then some r.2 else none) := by
  intro ids
  induction ids with
  | nil => intro zs _; rfl
  | cons x xs ih =>
    intro zs hc
    cases zs with
    | nil => rfl
    | cons z zt =>
      simp only [List.map_cons, List.zip_cons_cons, List.filterMap_cons]
      have hx := hc x (List.mem_cons_self _ _)
      have hrest := ih zt (fun y hy => hc y (List.mem_cons_of_mem _ hy))
      by_cases hfx : f x = p
      · rw [if_pos hfx, if_pos (hx.mp hfx), hrest]
      · rw [if_neg hfx, if_neg (fun he => hfx (hx.mpr he)), hrest]

/-- The inverse-index condition used to translate positions back to
canonical ids: for every id occurring among the rows, its `np.unique`
inverse position is `p` exactly when the id is the one sitting at
position `p` of the sorted unique array. -/
theorem idxOf_cond {ids : List String} {p : Nat} {eid : String}
    (heid : (npUnique ids).get? p = some eid) :
    ∀ x ∈ ids, (idxOf x (npUnique ids) = p ↔ x = eid) := by
  intro x hx
  have hxu : x ∈ npUnique ids := mem_npUnique.mpr hx
  constructor
  · intro hidx
    have := get?_idxOf hxu
    rw [hidx, heid] at this
    exact (Option.some_inj.mp this).symm
  · intro hxe
    subst hxe
    exact idxOf_eq_of_get? (npUnique_nodup ids) heid

theorem get?_some_lt {α : Type} {l : List α} {p : Nat} {a : α}
    (h : l.get? p = some a) : p < l.length := by
  by_contra hge
  rw [List.get?_eq_getElem?, List.getElem?_eq_none (Nat.le_of_not_lt hge)] at h
  cases h

/-! ### Claim theorems -/

/-- C1: For every task mapping whose row extraction and merge succeed,
the merged labels list, the merged unique-id list and
`MultitaskDataset.__len__` all equal the number of distinct canonical ids
collected from every task's rows. -/
theorem C1_merge_length_eq_distinct_ids {L F : Type} (cid : String → String)
    (lsize : L → Nat) (b : Bool) (ds : List (String × SingleTaskDataset L F))
    (al : AllLists L F) (res : MergeResult String L F)
    (mtd : MultitaskDatasetS L F)
    (hal : get_all_lists_ids cid ds = .ok al)
    (hm : mergeG getInvStd cid ds = .ok res)
    (hi : initMTD cid lsize b ds = .ok mtd) :
    res.labelsList.length = al.mol_ids.toFinset.card ∧
      res.molIds.length = al.mol_ids.toFinset.card ∧
      mtd.lengthM = al.mol_ids.toFinset.card := by
  obtain ⟨hmi, hlb⟩ := mergeG_ok_shape getInvStd cid ds al res hal hm
  have hcard : (getInvStd al.mol_ids).1.length = al.mol_ids.toFinset.card :=
    npUnique_length al.mol_ids
  have hlblen : res.labelsList.length = al.mol_ids.toFinset.card := by
    rw [hlb, labelsScatterGo_length, List.length_replicate, hcard]
  refine ⟨hlblen, by rw [hmi, hcard], ?_⟩
  cases ds with
  | nil => cases hi
  | cons td rest =>
    obtain ⟨t0, d0⟩ := td
    simp only [initMTD] at hi
    rw [exceptBind_ok] at hi
    obtain ⟨eF, heF, hi⟩ := hi
    rw [exceptBind_ok] at hi
    obtain ⟨res2, hres2, hi⟩ := hi
    rw [exceptBind_ok] at hi
    obtain ⟨parts, hparts, hi⟩ := hi
    rw [exceptBind_ok] at hi
    obtain ⟨lsz, hlsz, hi⟩ := hi
    cases hi
    rw [hm] at hres2
    cases hres2
    have := (unpackInit_ok_parts hparts).1
    simp only [MultitaskDatasetS.lengthM]
    rw [this]
    exact hlblen

/-- Witness for C1 at the spec §8 scenario (two tasks, one shared row). -/
theorem C1_witness :
    wRes1.labelsList.length = wAl1.mol_ids.toFinset.card ∧
      wRes1.molIds.length = wAl1.mol_ids.toFinset.card ∧
      wMtd1.lengthM = wAl1.mol_ids.toFinset.card :=
  C1_merge_length_eq_distinct_ids wId wSz true wDs1 wAl1 wRes1 wMtd1
    (by rfl) (by rfl) (by rfl)

/-- C2: The merged unique-id list is strictly sorted (the ascending
sorted order of the distinct canonical ids of all rows), and two mappings
holding the same associations in different iteration orders merge to the
identical unique-id list. -/
theorem C2_sorted_and_order_independent {L F : Type} (cid : String → String)
    (ds ds' : List (String × SingleTaskDataset L F)) (al : AllLists L F)
    (res res' : MergeResult String L F)
    (hal : get_all_lists_ids cid ds = .ok al)
    (hm : mergeG getInvStd cid ds = .ok res)
    (hm' : mergeG getInvStd cid ds' = .ok res')
    (hperm : List.Perm ds ds') :
    List.Sorted strLe res.molIds ∧ res.molIds.Nodup ∧
      (∀ s, s ∈ res.molIds ↔ s ∈ al.mol_ids) ∧
      res'.molIds = res.molIds := by
  obtain ⟨hmi, _⟩ := mergeG_ok_shape getInvStd cid ds al res hal hm
  obtain ⟨al', hal'⟩ := mergeG_ok_get_all hm'
  obtain ⟨hmi', _⟩ := mergeG_ok_shape getInvStd cid ds' al' res' hal' hm'
  obtain ⟨al2, hal2, hp⟩ := get_all_perm cid hperm hal
  rw [hal2] at hal'
  have heq := Except.ok.inj hal'
  subst heq
  have hstd : (getInvStd al.mol_ids).1 = npUnique al.mol_ids := rfl
  have hstd' : (getInvStd al2.mol_ids).1 = npUnique al2.mol_ids := rfl
  refine ⟨?_, ?_, ?_, ?_⟩
  · rw [hmi, hstd]
    exact npUnique_sorted al.mol_ids
  · rw [hmi, hstd]
    exact npUnique_nodup al.mol_ids
  · intro s
    rw [hmi, hstd]
    exact mem_npUnique
  · rw [hmi, hmi', hstd, hstd']
    exact (npUnique_eq_of_perm hp).symm

/-- Witness for C2: the §8 scenario and its task-order reversal produce the
same sorted id list. -/
theorem C2_witness :
    List.Sorted strLe wRes1.molIds ∧ wRes1P.molIds = wRes1.molIds :=
  ⟨(C2_sorted_and_order_independent wId wDs1 wDs1P wAl1 wRes1 wRes1P
      (by rfl) (by rfl) (by rfl)
      (List.Perm.swap ("B", wStdB) ("A", wStdA) [])).1,
    (C2_sorted_and_order_independent wId wDs1 wDs1P wAl1 wRes1 wRes1P
      (by rfl) (by rfl) (by rfl)
      (List.Perm.swap ("B", wStdB) ("A", wStdA) [])).2.2.2⟩

/-- C3: For every entity of the merged result, the label stored under a
task key is the label of the last row (task iteration order, then row order)
whose canonical id resolved to that entity and whose task matches; the key
is present exactly when such a row exists. -/
theorem C3_label_map_last_writer_wins {L F : Type} (cid : String → String)
    (ds : List (String × SingleTaskDataset L F)) (al : AllLists L F)
    (res : MergeResult String L F) (p : Nat) (t eid : String)
    (hal : get_all_lists_ids cid ds = .ok al)
    (hm : mergeG getInvStd cid ds = .ok res)
    (heid : res.molIds.get? p = some eid) :
    labelAt res.labelsList p t = lastLabelFor al eid t ∧
      ((labelAt res.labelsList p t).isSome = true ↔
        taskContributed al eid t) := by
  obtain ⟨hmi, hlb⟩ := mergeG_ok_shape getInvStd cid ds al res hal hm
  have hstd : (getInvStd al.mol_ids).1 = npUnique al.mol_ids := rfl
  have hinv : (getInvStd al.mol_ids).2 =
      al.mol_ids.map (fun s => idxOf s (npUnique al.mol_ids)) := rfl
  rw [hstd] at hmi
  rw [hstd, hinv] at hlb
  rw [hmi] at heid
  have hp : p < (npUnique al.mol_ids).length := get?_some_lt heid
  have hmain : labelAt res.labelsList p t = lastLabelFor al eid t := by
    rw [hlb]
    have hacc : p < (List.replicate (npUnique al.mol_ids).length
        ([] : List (String × L))).length := by
      rw [List.length_replicate]
      exact hp
    rw [labelsScatterGo_labelAt _ _ p t hacc]
    have hbase : labelAt (List.replicate (npUnique al.mol_ids).length
        ([] : List (String × L))) p t = none := by
      unfold labelAt
      rw [replicate_get? _ hp]
      rfl
    rw [hbase, optionElim_id]
    rw [filterMap_zip_congr_labels _ p eid t al.mol_ids
      (al.tasks.zip al.labels) (idxOf_cond heid)]
    rfl
  refine ⟨hmain, ?_⟩
  rw [hmain]
  unfold lastLabelFor
  rw [getLast?_isSome_iff]
  constructor
  · intro hne
    have hnall : ¬ ∀ r ∈ al.mol_ids.zip (al.tasks.zip al.labels),
        (fun r : String × String × L =>
          if r.1 = eid then (if r.2.1 = t then some r.2.2 else none)
          else none) r = none :=
      fun hall => hne (List.filterMap_eq_nil_iff.mpr hall)
    push_neg at hnall
    obtain ⟨r, hr, hrne⟩ := hnall
    by_cases h1 : r.1 = eid
    · by_cases h2 : r.2.1 = t
      · exact ⟨r, hr, h1, h2⟩
      · exact absurd (by simp [h1, h2]) hrne
    · exact absurd (by simp [h1]) hrne
  · rintro ⟨r, hr, h1, h2⟩
    intro hnil
    have := List.filterMap_eq_nil_iff.mp hnil r hr
    rw [if_pos h1, if_pos h2] at this
    cases this

/-- Witness for C3: in the §8 scenario the entity `m2` (position 1) carries
task A's label of its last matching row. -/
theorem C3_witness :
    labelAt wRes1.labelsList 1 "A" = lastLabelFor wAl1 "m2" "A" :=
  (C3_label_map_last_writer_wins wId wDs1 wAl1 wRes1 1 "A" "m2"
    (by rfl) (by rfl) (by rfl)).1

/-- C7: In a successful merge the per-entity feature slot is a single
slot holding the feature of the last row (task iteration order, then row
order) whose canonical id resolved to that entity; when no task supplies
features, the result is the 3-tuple without any feature array. -/
theorem C7_feature_slot_last_writer_wins {L F : Type} (cid : String → String)
    (ds : List (String × SingleTaskDataset L F)) (al : AllLists L F)
    (res : MergeResult String L F)
    (hal : get_all_lists_ids cid ds = .ok al)
    (hm : mergeG getInvStd cid ds = .ok res) :
    (∀ mi sm lb ft p eid, res = .with_feats mi sm lb ft →
      mi.get? p = some eid → ft.get? p = some (lastFeatureFor al eid)) ∧
    (al.features = [] → ∃ mi sm lb, res = .no_feats mi sm lb) := by
  rw [mergeG_eq getInvStd cid ds al hal] at hm
  constructor
  · intro mi sm lb ft p eid hres heid
    subst hres
    by_cases hf : 0 < al.features.length
    · rw [if_pos hf] at hm
      rw [exceptBind_ok] at hm
      obtain ⟨ft', hft', hinj⟩ := hm
      have hinj2 := Except.ok.inj hinj
      injection hinj2 with h1 h2 h3 h4
      rw [← h1] at heid
      have heidu : (npUnique al.mol_ids).get? p = some eid := heid
      have hp : p < (npUnique al.mol_ids).length := get?_some_lt heidu
      have hacc : p < (List.replicate (getInvStd al.mol_ids).1.length
          (none : Option F)).length := by
        rw [List.length_replicate]
        exact hp
      have hchar := featuresScatterGo_get? al.features
        (getInvStd al.mol_ids).2 0
        (List.replicate (getInvStd al.mol_ids).1.length none) ft' p hft' hacc
      have hp' : p < (getInvStd al.mol_ids).1.length := hp
      rw [replicate_get? _ hp'] at hchar
      simp only [Option.getD_some] at hchar
      rw [optionElim_id, List.drop_zero] at hchar
      rw [← h4, hchar]
      have hinv : (getInvStd al.mol_ids).2 =
          al.mol_ids.map (fun s => idxOf s (npUnique al.mol_ids)) := rfl
      rw [hinv, filterMap_zip_congr_feats _ p eid al.mol_ids al.features
        (idxOf_cond heidu)]
      rfl
    · rw [if_neg hf] at hm
      exact MergeResult.noConfusion (Except.ok.inj hm)
  · intro hfe
    have hnf : ¬ 0 < al.features.length := by
      rw [hfe]
      simp
    rw [if_neg hnf] at hm
    exact ⟨_, _, _, (Except.ok.inj hm).symm⟩

/-- Witness for C7: two rows of one task collapse onto id `z`; the single
feature slot holds the later row's feature. -/
theorem C7_witness :
    ([some 20] : List (Option Nat)).get? 0 = some (lastFeatureFor wAlC "z") :=
  (C7_feature_slot_last_writer_wins wId wDsC wAlC wResC (by rfl) (by rfl)).1
    ["z"] [["s1", "s2"]] [[("C", 2)]] [some 20] 0 "z" rfl rfl

/-- C9: When at least one non-empty task supplies features and at least
one does not, the features branch indexes the concatenated feature list out
of range and the merge fails with an IndexError; when every non-empty task
supplies features, the Option-valued feature lookup never fails and the
merge succeeds. -/
theorem C9_mixed_features_index_error {L F : Type} (cid : String → String)
    (ds : List (String × SingleTaskDataset L F)) (al : AllLists L F)
    (hal : get_all_lists_ids cid ds = .ok al) :
    ((∃ td ∈ ds, td.2.labels.length ≠ 0 ∧ td.2.features.isSome = true) →
      (∃ td ∈ ds, td.2.labels.length ≠ 0 ∧ td.2.features.isSome = false) →
      mergeG getInvStd cid ds = .error "IndexError: features") ∧
    ((∀ td ∈ ds, td.2.labels.length ≠ 0 → td.2.features.isSome = true) →
      ∃ res, mergeG getInvStd cid ds = .ok res) := by
  have hinvlen : (getInvStd al.mol_ids).2.length = al.mol_ids.length :=
    List.length_map _ _
  constructor
  · intro hpos hmix
    have hflt := get_all_features_mixed cid ds al hal hmix
    have hfpos := get_all_features_pos cid ds al hal hpos
    rw [mergeG_eq getInvStd cid ds al hal, if_pos hfpos]
    rw [featuresScatterGo_error al.features (getInvStd al.mol_ids).2 0
      (List.replicate (getInvStd al.mol_ids).1.length none)
      (by rw [← List.length_pos, hinvlen]; omega)
      (by rw [hinvlen]; omega)]
    rfl
  · intro hall
    have hfeq := get_all_features_all cid ds al hal hall
    rw [mergeG_eq getInvStd cid ds al hal]
    by_cases hf : 0 < al.features.length
    · rw [if_pos hf]
      obtain ⟨ftres, hftres⟩ := featuresScatterGo_ok al.features
        (getInvStd al.mol_ids).2 0
        (List.replicate (getInvStd al.mol_ids).1.length none)
        (by rw [hinvlen]; omega)
      rw [hftres, exceptBind_ok_left]
      exact ⟨_, rfl⟩
    · rw [if_neg hf]
      exact ⟨_, rfl⟩

/-- Witness for C9: one featureless task plus one featured task make the
standard merge raise the out-of-range feature lookup. -/
theorem C9_witness :
    mergeG getInvStd wId [("A", wStdNoF), ("B", wStdWithF)] =
      .error "IndexError: features" :=
  (C9_mixed_features_index_error wId [("A", wStdNoF), ("B", wStdWithF)]
      wAlMix (by rfl)).1
    ⟨("B", wStdWithF), by decide, by decide, by decide⟩
    ⟨("A", wStdNoF), by decide, by decide, by decide⟩

theorem get_all_all_empty {L F : Type} (cid : String → String) :
    ∀ (ds : List (String × SingleTaskDataset L F)),
      (∀ td ∈ ds, td.2.labels.length = 0) →
      get_all_lists_ids cid ds = .ok ⟨[], [], [], [], []⟩ := by
  intro ds
  induction ds with
  | nil => intro _; rfl
  | cons td rest ih =>
    intro hall
    rw [get_all_cons, if_pos (hall td (List.mem_cons_self _ _))]
    exact ih (fun x hx => hall x (List.mem_cons_of_mem _ hx))

theorem set_label_size_go_all_empty {L F : Type} (lsize : L → Nat) :
    ∀ (ds : List (String × SingleTaskDataset L F)) (acc : List (String × Nat)),
      (∀ td ∈ ds, td.2.labels.length = 0) →
      set_label_size_go lsize ds acc = .ok acc := by
  intro ds
  induction ds with
  | nil => intro acc _; rfl
  | cons td rest ih =>
    intro acc hall
    simp only [set_label_size_go]
    rw [if_pos (hall td (List.mem_cons_self _ _))]
    exact ih acc (fun x hx => hall x (List.mem_cons_of_mem _ hx))

/-- Counterexample for C4 (and the empty-mapping half is C5's): on the
zero-entity collection the mean accessor raises an AttributeError — neither
a `DegenerateDatasetError` nor a sentinel value. -/
theorem C4_counterexample :
    initMTD wId wSz false [("A", wStdEmpty)] = .ok wMtdEmpty ∧
      mean_num_nodes_per_graph (fun f => f) wMtdEmpty =
        .error "AttributeError: features" ∧
      ("AttributeError: features" : String) ≠ "DegenerateDatasetError" :=
  ⟨by rfl, by rfl, by decide⟩

/-- C4, amended: On a constructed collection with zero entities every
structural-statistics accessor fails by reading the never-assigned
`self.features` attribute (an AttributeError, reached before any division):
the code provides neither a `DegenerateDatasetError` nor a sentinel. -/
theorem C4_empty_stats_attribute_error {L F : Type} (cid : String → String)
    (lsize : L → Nat) (b : Bool) (ds : List (String × SingleTaskDataset L F))
    (mtd : MultitaskDatasetS L F) (nn ne : F → Nat)
    (hi : initMTD cid lsize b ds = .ok mtd)
    (hlen : mtd.lengthM = 0) :
    mean_num_nodes_per_graph nn mtd = .error "AttributeError: features" ∧
      mean_num_edges_per_graph ne mtd = .error "AttributeError: features" ∧
      max_num_nodes_per_graph nn mtd = .error "AttributeError: features" ∧
      min_num_nodes_per_graph nn mtd = .error "AttributeError: features" := by
  have hfeat : mtd.features = none := by
    cases ds with
    | nil => cases hi
    | cons td rest =>
      obtain ⟨t0, d0⟩ := td
      simp only [initMTD] at hi
      rw [exceptBind_ok] at hi
      obtain ⟨eF, heF, hi⟩ := hi
      rw [exceptBind_ok] at hi
      obtain ⟨res2, hres2, hi⟩ := hi
      rw [exceptBind_ok] at hi
      obtain ⟨parts, hparts, hi⟩ := hi
      rw [exceptBind_ok] at hi
      obtain ⟨lsz, hlsz, hi⟩ := hi
      cases hi
      simp only [MultitaskDatasetS.lengthM] at hlen
      cases eF with
      | false =>
        cases res2 with
        | with_feats a b2 c d => cases hparts
        | no_feats a b2 c => cases hparts; rfl
      | true =>
        exfalso
        have hd0 : 0 < d0.labels.length := by
          by_contra hzero
          unfold expectFeaturesFlag at heF
          rw [if_neg hzero] at heF
          cases heF
        cases res2 with
        | no_feats a b2 c => cases hparts
        | with_feats a b2 c d =>
          cases hparts
          obtain ⟨al, hal⟩ := mergeG_ok_get_all hres2
          obtain ⟨hmi, hlb⟩ := mergeG_ok_shape _ _ _ al _ hal hres2
          simp only [MergeResult.labelsList] at hlb
          have hclen : c.length = (getInvStd al.mol_ids).1.length := by
            rw [hlb, labelsScatterGo_length, List.length_replicate]
          have hmlen : 0 < al.mol_ids.length :=
            lt_of_lt_of_le hd0 (get_all_head_le cid (t0, d0) rest al hal)
          obtain ⟨x, hx⟩ := List.exists_mem_of_length_pos hmlen
          have hnpos : 0 < (npUnique al.mol_ids).length :=
            List.length_pos.mpr (List.ne_nil_of_mem (mem_npUnique.mpr hx))
          have hgl : (getInvStd al.mol_ids).1.length =
              (npUnique al.mol_ids).length := rfl
          have hc0 : c.length = 0 := hlen
          omega
  have herr : mtd.featuresAttr =
      (.error "AttributeError: features" : Except String (List (Option F))) := by
    unfold MultitaskDatasetS.featuresAttr
    rw [hfeat]
  have h1 : num_nodes_totalE nn mtd = .error "AttributeError: features" := by
    unfold num_nodes_totalE
    rw [herr, exceptBind_err_left]
  have h2 : num_edges_totalE ne mtd = .error "AttributeError: features" := by
    unfold num_edges_totalE
    rw [herr, exceptBind_err_left]
  refine ⟨?_, ?_, ?_, ?_⟩
  · unfold mean_num_nodes_per_graph
    rw [h1, exceptBind_err_left]
  · unfold mean_num_edges_per_graph
    rw [h2, exceptBind_err_left]
  · unfold max_num_nodes_per_graph
    rw [herr, exceptBind_err_left]
  · unfold min_num_nodes_per_graph
    rw [herr, exceptBind_err_left]

/-- Witness for the amended C4 at the concrete empty collection. -/
theorem C4_witness :
    mean_num_nodes_per_graph (fun f => f) wMtdEmpty =
        .error "AttributeError: features" ∧
      mean_num_edges_per_graph (fun f => f) wMtdEmpty =
        .error "AttributeError: features" ∧
      max_num_nodes_per_graph (fun f => f) wMtdEmpty =
        .error "AttributeError: features" ∧
      min_num_nodes_per_graph (fun f => f) wMtdEmpty =
        .error "AttributeError: features" :=
  C4_empty_stats_attribute_error wId wSz false [("A", wStdEmpty)] wMtdEmpty
    (fun f => f) (fun f => f) (by rfl) rfl

/-- Counterexample for C5: constructing from the empty task mapping does not
succeed — `next(iter(datasets))` raises StopIteration. -/
theorem C5_counterexample :
    initMTD wId wSz true ([] : List (String × SingleTaskDataset Int Nat)) =
      .error "StopIteration" := rfl

/-- C5, amended: Constructing from a non-empty mapping in which every
task's store has zero rows succeeds (empty tasks are skipped silently) and
yields a collection of length 0; the empty-mapping case instead fails with
StopIteration. -/
theorem C5_all_empty_succeeds_length_zero {L F : Type} (cid : String → String)
    (lsize : L → Nat) (b : Bool) (ds : List (String × SingleTaskDataset L F))
    (hne : ds ≠ []) (hall : ∀ td ∈ ds, td.2.labels.length = 0) :
    (initMTD cid lsize b ds).isOk = true ∧
      ∀ mtd, initMTD cid lsize b ds = .ok mtd → mtd.lengthM = 0 := by
  cases ds with
  | nil => exact absurd rfl hne
  | cons td rest =>
    obtain ⟨t0, d0⟩ := td
    have h0 : d0.labels.length = 0 := hall (t0, d0) (List.mem_cons_self _ _)
    have heF : expectFeaturesFlag d0 = .ok false := by
      unfold expectFeaturesFlag
      rw [if_neg (by omega)]
    have hal : get_all_lists_ids cid ((t0, d0) :: rest) =
        .ok ⟨[], [], [], [], []⟩ :=
      get_all_all_empty cid _ hall
    have hm : mergeG getInvStd cid ((t0, d0) :: rest) =
        .ok (.no_feats [] [] []) := by
      rw [mergeG_eq getInvStd cid _ _ hal]
      rfl
    have hlsz : set_label_size_dict lsize ((t0, d0) :: rest) = .ok [] :=
      set_label_size_go_all_empty lsize _ [] hall
    have hinit : initMTD cid lsize b ((t0, d0) :: rest) =
        .ok ⟨if b then some [] else none, if b then some [] else none,
          [], none, []⟩ := by
      simp only [initMTD]
      rw [heF, exceptBind_ok_left, hm, hlsz]
      rfl
    constructor
    · rw [hinit]
      rfl
    · intro mtd hmtd
      rw [hinit] at hmtd
      have := Except.ok.inj hmtd
      rw [← this]
      rfl

/-- Witness for the amended C5 at a one-task mapping whose store is empty. -/
theorem C5_witness :
    (initMTD wId wSz true [("A", wStdEmpty)]).isOk = true :=
  (C5_all_empty_succeeds_length_zero wId wSz true [("A", wStdEmpty)]
    (by decide) (by decide)).1

/-- C6: A `SingleTaskDataset` constructed with any provided optional
parallel list whose length differs from `labels` fails at construction with
a length-mismatch assertion naming the offending pair. -/
theorem C6_construct_length_mismatch {L F : Type} (labels : List L)
    (fs : List F) (sm ixs uids : List String) (ws : List Int)
    (hf : fs.length ≠ labels.length) (hs : sm.length ≠ labels.length)
    (hx : ixs.length ≠ labels.length) (hw : ws.length ≠ labels.length)
    (hu : uids.length ≠ labels.length) :
    (SingleTaskDataset.construct labels (some fs) none none none none :
        Except String (SingleTaskDataset L F)) =
      .error ("features must be the same length as labels, got " ++
        toString fs.length ++ " and " ++ toString labels.length) ∧
    (SingleTaskDataset.construct labels none (some sm) none none none :
        Except String (SingleTaskDataset L F)) =
      .error ("smiles must be the same length as labels, got " ++
        toString sm.length ++ " and " ++ toString labels.length) ∧
    (SingleTaskDataset.construct labels none none (some ixs) none none :
        Except String (SingleTaskDataset L F)) =
      .error ("indices must be the same length as labels, got " ++
        toString ixs.length ++ " and " ++ toString labels.length) ∧
    (SingleTaskDataset.construct labels none none none (some ws) none :
        Except String (SingleTaskDataset L F)) =
      .error ("weights must be the same length as labels, got " ++
        toString ws.length ++ " and " ++ toString labels.length) ∧
    (SingleTaskDataset.construct labels none none none none (some uids) :
        Except String (SingleTaskDataset L F)) =
      .error ("unique_ids must be the same length as labels, got " ++
        toString uids.length ++ " and " ++ toString labels.length) := by
  have hcf : checkLen "features" labels.length (some fs) =
      (.error ("features must be the same length as labels, got " ++
        toString fs.length ++ " and " ++ toString labels.length) :
        Except String Unit) := by
    simp only [checkLen]
    rw [if_neg hf]
    rfl
  have hcs : checkLen "smiles" labels.length (some sm) =
      (.error ("smiles must be the same length as labels, got " ++
        toString sm.length ++ " and " ++ toString labels.length) :
        Except String Unit) := by
    simp only [checkLen]
    rw [if_neg hs]
    rfl
  have hcx : checkLen "indices" labels.length (some ixs) =
      (.error ("indices must be the same length as labels, got " ++
        toString ixs.length ++ " and " ++ toString labels.length) :
        Except String Unit) := by
    simp only [checkLen]
    rw [if_neg hx]
    rfl
  have hcw : checkLen "weights" labels.length (some ws) =
      (.error ("weights must be the same length as labels, got " ++
        toString ws.length ++ " and " ++ toString labels.length) :
        Except String Unit) := by
    simp only [checkLen]
    rw [if_neg hw]
    rfl
  have hcu : checkLen "unique_ids" labels.length (some uids) =
      (.error ("unique_ids must be the same length as labels, got " ++
        toString uids.length ++ " and " ++ toString labels.length) :
        Except String Unit) := by
    simp only [checkLen]
    rw [if_neg hu]
    rfl
  refine ⟨?_, ?_, ?_, ?_, ?_⟩
  · simp only [SingleTaskDataset.construct]
    rw [hcf, exceptBind_err_left]
  · simp only [SingleTaskDataset.construct]
    rw [show checkLen "features" labels.length (none : Option (List F)) =
      (.ok () : Except String Unit) from rfl, exceptBind_ok_left, hcs,
      exceptBind_err_left]
  · simp only [SingleTaskDataset.construct]
    rw [show checkLen "features" labels.length (none : Option (List F)) =
      (.ok () : Except String Unit) from rfl, exceptBind_ok_left,
      show checkLen "smiles" labels.length (none : Option (List String)) =
      (.ok () : Except String Unit) from rfl, exceptBind_ok_left, hcx,
      exceptBind_err_left]
  · simp only [SingleTaskDataset.construct]
    rw [show checkLen "features" labels.length (none : Option (List F)) =
      (.ok () : Except String Unit) from rfl, exceptBind_ok_left,
      show checkLen "smiles" labels.length (none : Option (List String)) =
      (.ok () : Except String Unit) from rfl, exceptBind_ok_left,
      show checkLen "indices" labels.length (none : Option (List String)) =
      (.ok () : Except String Unit) from rfl, exceptBind_ok_left, hcw,
      exceptBind_err_left]
  · simp only [SingleTaskDataset.construct]
    rw [show checkLen "features" labels.length (none : Option (List F)) =
      (.ok () : Except String Unit) from rfl, exceptBind_ok_left,
      show checkLen "smiles" labels.length (none : Option (List String)) =
      (.ok () : Except String Unit) from rfl, exceptBind_ok_left,
      show checkLen "indices" labels.length (none : Option (List String)) =
      (.ok () : Except String Unit) from rfl, exceptBind_ok_left,
      show checkLen "weights" labels.length (none : Option (List Int)) =
      (.ok () : Except String Unit) from rfl, exceptBind_ok_left, hcu,
      exceptBind_err_left]

/-- Witness for C6: labels of length 5 with features of length 4 (and the
other four parallel lists of length 1) each fail with the message naming
that pair. -/
theorem C6_witness :
    (SingleTaskDataset.construct [0, 1, 2, 3, 4] (some [9, 9, 9, 9])
        none none none none : Except String (SingleTaskDataset Int Nat)) =
      .error ("features must be the same length as labels, got " ++
        toString [9, 9, 9, 9].length ++ " and " ++
        toString [0, 1, 2, 3, 4].length) :=
  (C6_construct_length_mismatch [0, 1, 2, 3, 4] [9, 9, 9, 9] ["a"] ["b"]
    ["c"] [7] (by decide) (by decide) (by decide) (by decide) (by decide)).1

/-- C8: A `FakeDataset` built with `indexing_same_elem = false` has
length exactly `num_mols` regardless of how many entities the merge
produced, its records at any two in-range indices are value-equal, and
updating the backing lists at one index leaves the value read at any other
index unchanged (the records are independent copies). -/
theorem C8_fake_length_value_equal {L F : Type} (cid : String → String)
    (lsize : L → Nat) (n : Nat)
    (ds : List (String × SingleTaskDataset L F)) (fk : FakeDatasetS L F)
    (h : initFake cid lsize n false ds = .ok fk) :
    fk.lengthF = n ∧
      (∀ i j, i < n → j < n → fk.getItemF i = fk.getItemF j) ∧
      (∀ i j (v : List (String × L)) (w : Option F), i < n → j < n → i ≠ j →
        (fk.labels.set i v).get? j = fk.labels.get? j ∧
        (fk.features.set i w).get? j = fk.features.get? j) := by
  cases ds with
  | nil => cases h
  | cons td rest =>
    obtain ⟨t0, d0⟩ := td
    simp only [initFake] at h
    rw [exceptBind_ok] at h
    obtain ⟨r0, hr0, h⟩ := h
    rw [exceptBind_ok] at h
    obtain ⟨res, hres, h⟩ := h
    by_cases hiso : r0.features.isSome = true
    · rw [if_pos hiso] at h
      rw [exceptBind_ok] at h
      obtain ⟨parts, hparts, h⟩ := h
      rw [exceptBind_ok] at h
      obtain ⟨state, hstate, h⟩ := h
      rw [exceptBind_ok] at h
      obtain ⟨lsz, hlsz, h⟩ := h
      cases h
      unfold fakeCopyStep at hstate
      rw [if_neg Bool.false_ne_true] at hstate
      rw [exceptBind_ok] at hstate
      obtain ⟨q, hq, hstate⟩ := hstate
      cases hstate
      unfold deepcopy_mol at hq
      rw [exceptBind_ok] at hq
      obtain ⟨m0, hm0, hq⟩ := hq
      rw [exceptBind_ok] at hq
      obtain ⟨l0, hl0, hq⟩ := hq
      rw [exceptBind_ok] at hq
      obtain ⟨s0, hs0, hq⟩ := hq
      rw [exceptBind_ok] at hq
      obtain ⟨fts, hfts, hq⟩ := hq
      cases hq
      simp only [optHeadRep] at hfts
      cases hf0 : (parts.2.2.2).head? with
      | none => rw [hf0] at hfts; cases hfts
      | some f0 =>
        rw [hf0] at hfts
        cases hfts
        refine ⟨rfl, ?_, ?_⟩
        · intro i j hi hj
          simp only [FakeDatasetS.getItemF, reqIndex, Option.getD_some]
          rw [if_neg Bool.false_ne_true]
          rw [if_neg Bool.false_ne_true]
          rw [replicate_get? _ hi, replicate_get? _ hj,
            replicate_get? _ hi, replicate_get? _ hj]
        · intro i j v w _ _ hij
          exact ⟨get?_set_ne _ _ hij, get?_set_ne _ _ hij⟩
    · rw [if_neg hiso] at h
      rw [exceptBind_ok] at h
      obtain ⟨parts, hparts, h⟩ := h
      rw [exceptBind_ok] at h
      obtain ⟨u, hu, h⟩ := h
      rw [exceptBind_ok] at h
      obtain ⟨lsz, hlsz, h⟩ := h
      cases h

/-- Witness for C8: ten records over one base molecule, value-equal at
distinct indices. -/
theorem C8_witness :
    wFk.lengthF = 10 ∧ wFk.getItemF 0 = wFk.getItemF 9 :=
  ⟨(C8_fake_length_value_equal wId wSz 10 [("A", wStdF)] wFk (by rfl)).1,
    (C8_fake_length_value_equal wId wSz 10 [("A", wStdF)] wFk (by rfl)).2.1
      0 9 (by decide) (by decide)⟩

/-- Counterexample for C10: over mixed base tasks whose first task lacks
features, the constructor fails with the merge's IndexError, not an
AttributeError. -/
theorem C10_counterexample :
    initFake wId wSz 5 false [("A", wStdNoF), ("B", wStdWithF)] =
      .error "IndexError: features" ∧
      ("IndexError: features" : String) ≠ "AttributeError: features" :=
  ⟨by rfl, by decide⟩

/-- C10, amended: When the first task's first record has no `features`
key, `FakeDataset.__init__` never succeeds; whenever the merge, the
duplication step and the label-size pass themselves succeed, the failure is
the AttributeError from reading the never-assigned `self.features` —
otherwise an earlier step's error (e.g. the merge's IndexError) preempts
it. -/
theorem C10_no_features_unusable {L F : Type} (cid : String → String)
    (lsize : L → Nat) (n : Nat) (same : Bool) (t0 : String)
    (d0 : SingleTaskDataset L F)
    (rest : List (String × SingleTaskDataset L F)) (r0 : STDRecord L F)
    (hr0 : d0.getItem 0 = .ok r0) (hnf : r0.features = none) :
    (∀ fk, initFake cid lsize n same ((t0, d0) :: rest) ≠ .ok fk) ∧
      (∀ mi sm lb (u : Unit) lsz,
        mergeG (getInvFake ((t0, d0) :: rest).length) cid ((t0, d0) :: rest) =
          .ok (.no_feats mi sm lb) →
        fakeCopyStepNo F n same mi sm lb = .ok u →
        set_label_size_dict lsize ((t0, d0) :: rest) = .ok lsz →
        initFake cid lsize n same ((t0, d0) :: rest) =
          .error "AttributeError: features") := by
  have hisoF : r0.features.isSome = false := by
    rw [hnf]
    rfl
  constructor
  · intro fk hcontra
    simp only [initFake] at hcontra
    rw [exceptBind_ok] at hcontra
    obtain ⟨r0', hr0', hcontra⟩ := hcontra
    rw [hr0] at hr0'
    have hre := Except.ok.inj hr0'
    subst hre
    rw [exceptBind_ok] at hcontra
    obtain ⟨res, hres, hcontra⟩ := hcontra
    rw [hisoF, if_neg Bool.false_ne_true] at hcontra
    rw [exceptBind_ok] at hcontra
    obtain ⟨parts, hparts, hcontra⟩ := hcontra
    rw [exceptBind_ok] at hcontra
    obtain ⟨u, hu, hcontra⟩ := hcontra
    rw [exceptBind_ok] at hcontra
    obtain ⟨lsz, hlsz, hcontra⟩ := hcontra
    cases hcontra
  · intro mi sm lb u lsz hm hcopy hlsz
    simp only [initFake]
    rw [hr0, exceptBind_ok_left, hm, exceptBind_ok_left, hisoF,
      if_neg Bool.false_ne_true]
    rw [show (unpackNo (.no_feats mi sm lb) : Except String
        (List Nat × List (List String) × List (List (String × L)))) =
      .ok (mi, sm, lb) from rfl, exceptBind_ok_left]
    rw [hcopy, exceptBind_ok_left, hlsz, exceptBind_ok_left]

/-- Witness for the amended C10: a single featureless base task reaches the
AttributeError. -/
theorem C10_witness :
    initFake wId wSz 5 false [("A", wStdNoF)] =
      .error "AttributeError: features" :=
  (C10_no_features_unusable wId wSz 5 false "A" wStdNoF []
      ⟨none, 0, some "a", none, none, some "x"⟩ (by rfl) rfl).2
    [0] [["a"]] [[("A", 0)]] () [("A", 1)] (by rfl) (by rfl) (by rfl)

end Goli
